import Mathlib

/-!
Verification development for a small query-routing system
(`main.py` and `campaign.py`): a pseudo-SQL condition extractor,
a conjunctive record filter over an in-memory record set, a
capacity-2 FIFO memory, and an intent router with a JSON-presence
override.  Python strings are modelled as `List Char` (ASCII case
mapping; the data and keywords in this program are ASCII).
-/

/-- Python strings are modelled as lists of characters. -/
abbrev Str := List Char

/-- Python regex `\s` / `str.strip` whitespace: space, tab, newline,
carriage return, vertical tab, form feed (ASCII fragment). -/
def isPySpace (c : Char) : Bool :=
  c == ' ' || c == '\t' || c == '\n' || c == '\r' || c == '\x0b' || c == '\x0c'

/-- Python regex `\w` (ASCII fragment): letters, digits, underscore. -/
def isWordChar (c : Char) : Bool :=
  c.isAlpha || c.isDigit || c == '_'

/-- The regex character class `['"]` used by the condition patterns. -/
def isQuoteChar (c : Char) : Bool :=
  c == '\x27' || c == '"'

/-- The ASCII lowercase/uppercase letter pairs. -/
def casePairs : List (Char × Char) :=
  [ ('a', 'A'), ('b', 'B'), ('c', 'C'), ('d', 'D'), ('e', 'E'), ('f', 'F'),
    ('g', 'G'), ('h', 'H'), ('i', 'I'), ('j', 'J'), ('k', 'K'), ('l', 'L'),
    ('m', 'M'), ('n', 'N'), ('o', 'O'), ('p', 'P'), ('q', 'Q'), ('r', 'R'),
    ('s', 'S'), ('t', 'T'), ('u', 'U'), ('v', 'V'), ('w', 'W'), ('x', 'X'),
    ('y', 'Y'), ('z', 'Z') ]

/-- The pairs keyed by the uppercase letter. -/
def caseRev : List (Char × Char) := casePairs.map (fun p => (p.2, p.1))

/-- ASCII `c.upper()` on one character. -/
def pyUpperChar (c : Char) : Char := ((casePairs.lookup c).getD c)

/-- ASCII `c.lower()` on one character. -/
def pyLowerChar (c : Char) : Char := ((caseRev.lookup c).getD c)

/-- Python `str.upper()` (ASCII fragment), as used by `parse_sql_conditions`. -/
def pyUpper (s : Str) : Str := s.map pyUpperChar

/-- Python `str.lower()` (ASCII fragment), as used by `.strip().lower()`. -/
def pyLower (s : Str) : Str := s.map pyLowerChar

/-- Python `str.strip()` with no argument: drop leading and trailing whitespace. -/
def pyStrip (s : Str) : Str :=
  ((s.dropWhile isPySpace).reverse.dropWhile isPySpace).reverse

/-- Split a string at the first occurrence of `pat`, returning the parts
before and after it; `none` when `pat` does not occur.  This models both
Python substring containment (`pat in s` iff the result is `some`) and the
segments of `s.split(pat)` that the source indexes into. -/
def splitFirst (pat : Str) : Str → Option (Str × Str)
  | [] => if pat.isEmpty then some ([], []) else none
  | c :: rest =>
    if pat.isPrefixOf (c :: rest) then some ([], (c :: rest).drop pat.length)
    else
      match splitFirst pat rest with
      | some (a, b) => some (c :: a, b)
      | none => none

/-- Python `pat in s` for strings. -/
def pyIn (pat : Str) (s : Str) : Bool := (splitFirst pat s).isSome

/-- Strip a case-insensitive literal prefix (used for the `AND`/`OR` and
`LIKE` literals, which the source matches with `re.IGNORECASE`). -/
def dropCaseless : Str → Str → Option Str
  | [], s => some s
  | _ :: _, [] => none
  | l :: ls, c :: cs => if pyLowerChar c == pyLowerChar l then dropCaseless ls cs else none

/-- One attempt of the separator regex `\s+AND\s+|\s+OR\s+` after its
leading whitespace, for one literal: the literal (case-insensitive), then
at least one whitespace character, greedily extended.  Returns the rest of
the string after the match. -/
def sepTail (lit : Str) (r1 : Str) : Option Str :=
  match dropCaseless lit r1 with
  | some (d :: r3) => if isPySpace d then some (r3.dropWhile isPySpace) else none
  | _ => none

/-- Leftmost-anchored attempt of the clause separator regex
`\s+AND\s+|\s+OR\s+` (IGNORECASE): at least one whitespace character
(greedy), then `AND` or `OR`, then at least one whitespace character
(greedy).  Since `\s`, the literal letters and the following characters are
in disjoint classes here, the greedy scan is equivalent to the backtracking
regex. -/
def matchSep (s : Str) : Option Str :=
  match s with
  | [] => none
  | c :: rest =>
    if isPySpace c then
      let r1 := rest.dropWhile isPySpace
      match sepTail ("AND".toList) r1 with
      | some t => some t
      | none => sepTail ("OR".toList) r1
    else none

/-- Fuel-driven worker for `re.split(r'\s+AND\s+|\s+OR\s+', s)`: scan left
to right; at each position, if the separator regex matches, emit the
accumulated segment and continue after the match, otherwise consume one
character.  Each step consumes at least one character, so fuel
`s.length + 1` always suffices. -/
def reSplitGo : Nat → Str → Str → List Str
  | 0, acc, _ => [acc.reverse]
  | _ + 1, acc, [] => [acc.reverse]
  | fuel + 1, acc, c :: r =>
    match matchSep (c :: r) with
    | some t => acc.reverse :: reSplitGo fuel [] t
    | none => reSplitGo fuel (c :: acc) r

/-- `re.split(r'\s+AND\s+|\s+OR\s+', s, flags=re.IGNORECASE)`. -/
def reSplitAndOr (s : Str) : List Str := reSplitGo (s.length + 1) [] s

/-- One parsed condition: `{'field': ..., 'operator': ..., 'value': ...}`. -/
structure Condition where
  field : Str
  op : Str
  value : Str
deriving DecidableEq, Repr

/-- Anchored attempt of pattern 1, `(\w+)\s*=\s*['"]([^'"]+)['"]`
(string equality).  All adjacent components are in disjoint character
classes, so the greedy scan without backtracking is equivalent to the
regex.  Returns the two capture groups. -/
def tryPatStrEq (s : Str) : Option (Str × Str) :=
  let field := s.takeWhile isWordChar
  if field.isEmpty then none else
  match (s.dropWhile isWordChar).dropWhile isPySpace with
  | e :: r2 =>
    if e == '=' then
      match r2.dropWhile isPySpace with
      | q :: r4 =>
        if isQuoteChar q then
          let v := r4.takeWhile (fun c => !(isQuoteChar c))
          if v.isEmpty then none else
          match r4.dropWhile (fun c => !(isQuoteChar c)) with
          | q2 :: _ => if isQuoteChar q2 then some (field, v) else none
          | [] => none
        else none
      | [] => none
    else none
  | [] => none

/-- Anchored attempt of the numeric patterns `(\w+)\s*OP\s*(\d+)` for
`OP` one of `=`, `>`, `<` (patterns 2-4).  Again all adjacent components
are in disjoint classes, so no backtracking is needed. -/
def tryPatNum (opc : Char) (s : Str) : Option (Str × Str) :=
  let field := s.takeWhile isWordChar
  if field.isEmpty then none else
  match (s.dropWhile isWordChar).dropWhile isPySpace with
  | c :: r2 =>
    if c == opc then
      let v := (r2.dropWhile isPySpace).takeWhile Char.isDigit
      if v.isEmpty then none else some (field, v)
    else none
  | [] => none

/-- The tail of pattern 5 after the field group:
`\s*LIKE\s*['"]([^'"]+)['"]` (IGNORECASE), anchored.  Returns the value
capture group. -/
def likeTail (s : Str) : Option Str :=
  match dropCaseless ("LIKE".toList) (s.dropWhile isPySpace) with
  | none => none
  | some r2 =>
    match r2.dropWhile isPySpace with
    | q :: r4 =>
      if isQuoteChar q then
        let v := r4.takeWhile (fun c => !(isQuoteChar c))
        if v.isEmpty then none else
        match r4.dropWhile (fun c => !(isQuoteChar c)) with
        | q2 :: _ => if isQuoteChar q2 then some (v) else none
        | [] => none
      else none
    | [] => none

/-- Backtracking of `(\w+)` against the literal `LIKE` (whose letters are
word characters): try the split points of the maximal word run from
longest to shortest, as the greedy regex engine does. -/
def tryPatLikeGo (run : Str) (s : Str) : Nat → Option (Str × Str)
  | 0 => none
  | k + 1 =>
    match likeTail (s.drop (k + 1)) with
    | some v => some (run.take (k + 1), v)
    | none => tryPatLikeGo run s k

/-- Anchored attempt of pattern 5, `(\w+)\s*LIKE\s*['"]([^'"]+)['"]`. -/
def tryPatLike (s : Str) : Option (Str × Str) :=
  let run := s.takeWhile isWordChar
  if run.isEmpty then none else tryPatLikeGo run s run.length

/-- `re.search`: try the anchored matcher at each position from the left;
the first position with a match wins. -/
def searchFirst (f : Str → Option (Str × Str)) : Str → Option (Str × Str)
  | [] => f []
  | c :: r =>
    match f (c :: r) with
    | some x => some x
    | none => searchFirst f r

/-- Python `value.replace('%', '.*')`. -/
def replacePct (v : Str) : Str :=
  v.flatMap (fun c => if c == '%' then ['.', '*'] else [c])

/-- The operator/value post-processing the source applies to whichever
pattern matched: the operator is re-derived from the whole clause text
(`'>' in part`, `'<' in part`, `'LIKE' in part.upper()`, else `=`), and
for `LIKE` the SQL `%` wildcard is rewritten to the regex `.*`. -/
def mkCondition (part : Str) (field : Str) (value : Str) : Condition :=
  if part.contains '>' then ⟨field, ">".toList, value⟩
  else if part.contains '<' then ⟨field, "<".toList, value⟩
  else if pyIn ("LIKE".toList) (pyUpper part) then ⟨field, "LIKE".toList, replacePct value⟩
  else ⟨field, "=".toList, value⟩

/-- Per-clause processing of `extract_conditions` (main.py:156-188,
campaign.py:373-404): strip the clause, drop one trailing `;`, then try
the five patterns in order; the first pattern that matches anywhere in the
clause yields the condition, otherwise the clause is dropped. -/
def condFromPart (part0 : Str) : Option Condition :=
  let p1 := pyStrip part0
  let part := if p1.getLast? == some ';' then p1.dropLast else p1
  match searchFirst tryPatStrEq part with
  | some (f, v) => some (mkCondition part f v)
  | none =>
    match searchFirst (tryPatNum '=') part with
    | some (f, v) => some (mkCondition part f v)
    | none =>
      match searchFirst (tryPatNum '>') part with
      | some (f, v) => some (mkCondition part f v)
      | none =>
        match searchFirst (tryPatNum '<') part with
        | some (f, v) => some (mkCondition part f v)
        | none =>
          match searchFirst tryPatLike part with
          | some (f, v) => some (mkCondition part f v)
          | none => none

/-- `extract_conditions` (main.py:149-190, campaign.py:368-406): split the
WHERE clause on `AND`/`OR` and convert each clause via the five patterns,
dropping clauses that match none of them. -/
def extract_conditions (conditionsStr : Str) : List Condition :=
  (reSplitAndOr conditionsStr).filterMap condFromPart

/-- `parse_sql_conditions` (main.py:133-147, campaign.py:354-366): if
`WHERE` occurs in the upper-cased query, take `split("WHERE")[1]` (the
segment between the first and second occurrence), truncate before the
first `GROUP BY` and `ORDER BY` when present, strip, and extract
conditions; otherwise no conditions. -/
def parse_sql_conditions (sqlQuery : Str) : List Condition :=
  let u := pyUpper sqlQuery
  match splitFirst ("WHERE".toList) u with
  | none => []
  | some (_, rest1) =>
    let seg :=
      match splitFirst ("WHERE".toList) rest1 with
      | some (a, _) => a
      | none => rest1
    let seg2 :=
      match splitFirst ("GROUP BY".toList) seg with
      | some (a, _) => a
      | none => seg
    let seg3 :=
      match splitFirst ("ORDER BY".toList) seg2 with
      | some (a, _) => a
      | none => seg2
    extract_conditions (pyStrip seg3)

/-- A primitive field value of a record: the sample records (the only
records this program ever filters) hold strings and integers. -/
inductive PyVal
  | int (n : Int)
  | str (s : Str)
deriving DecidableEq, Repr

/-- Python `str()` on a field value. -/
def pyStr : PyVal → Str
  | .int n => (toString n).toList
  | .str s => s

/-- `isinstance(v, (int, float))`. -/
def isNumericVal : PyVal → Bool
  | .int _ => true
  | .str _ => false

/-- A record is a flat mapping of field names to primitive values
(Python dict with distinct keys, modelled as an association list). -/
abbrev Record := List (Str × PyVal)

/-- Result of Python `float(value)` on a string.  Decimal literals are
modelled exactly as rationals (IEEE-754 rounding of the parsed literal is
not modelled; it is exact at the magnitudes this program's data uses),
`inf`/`infinity`/`nan` (case-insensitive, optionally signed) are the
special values, and anything else raises `ValueError` (`badLit`).
Underscore digit separators are not modelled. -/
inductive FloatLit
  | fin (q : ℚ)
  | pinf
  | ninf
  | nan
  | badLit
deriving DecidableEq, Repr

/-- Digit-string to natural number. -/
def digitsVal (l : Str) : Nat :=
  l.foldl (fun a c => a * 10 + (c.toNat - 48)) 0

/-- Parse the decimal part of a float literal: digits, optional fraction,
optional exponent; at least one digit in the mantissa; nothing may follow. -/
def floatDecimal (t : Str) : Option ℚ :=
  let ip := t.takeWhile Char.isDigit
  let r1 := t.dropWhile Char.isDigit
  let fp : Str × Str :=
    match r1 with
    | '.' :: r2 => (r2.takeWhile Char.isDigit, r2.dropWhile Char.isDigit)
    | _ => ([], r1)
  if ip.isEmpty && fp.1.isEmpty then none else
  let mant : ℚ := (digitsVal ip : ℚ) + (digitsVal fp.1 : ℚ) / ((10 : ℚ) ^ fp.1.length)
  match fp.2 with
  | [] => some mant
  | e :: r3 =>
    if e == 'e' || e == 'E' then
      let (eneg, r4) :=
        match r3 with
        | '+' :: r5 => (false, r5)
        | '-' :: r5 => (true, r5)
        | _ => (false, r3)
      let ed := r4.takeWhile Char.isDigit
      if ed.isEmpty || !(r4.dropWhile Char.isDigit).isEmpty then none
      else
        let ex : ℤ := if eneg then -(digitsVal ed : ℤ) else (digitsVal ed : ℤ)
        some (mant * (10 : ℚ) ^ ex)
    else none

/-- Python `float(s)`. -/
def pyFloat (s : Str) : FloatLit :=
  let t := pyStrip s
  let sgn : Bool × Str :=
    match t with
    | '+' :: r => (false, r)
    | '-' :: r => (true, r)
    | _ => (false, t)
  let neg := sgn.1
  let t1 := sgn.2
  if pyLower t1 == ("inf".toList) || pyLower t1 == ("infinity".toList) then
    if neg then .ninf else .pinf
  else if pyLower t1 == ("nan".toList) then .nan
  else
    match floatDecimal t1 with
    | some q => .fin (if neg then -q else q)
    | none => .badLit

/-- An atom of the modelled regex fragment: `.` (any character except
newline, since `re.DOTALL` is not passed) or a literal character. -/
inductive RAtom
  | any
  | ch (c : Char)
deriving DecidableEq, Repr

/-- Atom match under `re.IGNORECASE` (ASCII case folding). -/
def atomMatch : RAtom → Char → Bool
  | .any, c => !(c == '\n')
  | .ch a, c => pyLowerChar a == pyLowerChar c

/-- Characters that are regex metacharacters in Python beyond the
fragment modelled here (`.` wildcard and postfix `*`); a pattern using
them is outside the model. -/
def isRxSpecial (c : Char) : Bool :=
  c == '(' || c == ')' || c == '[' || c == ']' || c == '\x7b' || c == '\x7d' ||
  c == '?' || c == '+' || c == '\\' || c == '|' || c == '^' || c == '$'

/-- The atom denoted by one non-special pattern character. -/
def rxAtomOf (c : Char) : RAtom :=
  if c == '.' then .any else .ch c

/-- Parse a pattern string into atoms with star flags; `none` when the
pattern falls outside the modelled fragment (metacharacters other than
`.`/postfix `*`, or a `*` without a preceding atom or doubled, which
Python rejects). -/
def parseRx : Str → Option (List (RAtom × Bool))
  | [] => some []
  | '*' :: _ => none
  | _ :: '*' :: '*' :: _ => none
  | c :: '*' :: rest =>
    if isRxSpecial c then none
    else (parseRx rest).map (fun ts => (rxAtomOf c, true) :: ts)
  | c :: rest =>
    if isRxSpecial c then none
    else (parseRx rest).map (fun ts => (rxAtomOf c, false) :: ts)

/-- The suffixes reachable from `s` by consuming zero or more characters
that match atom `a` (for Kleene star). -/
def starSuffixes (a : RAtom) : Str → List Str
  | [] => [[]]
  | c :: r => (c :: r) :: (if atomMatch a c then starSuffixes a r else [])

/-- Anchored regex match: does some prefix of `s` match the token list?
Each recursive call consumes one token, so fuel `toks.length + 1`
suffices; running out of fuel is unreachable at that fuel. -/
def matchHereF : Nat → List (RAtom × Bool) → Str → Bool
  | 0, _, _ => false
  | _ + 1, [], _ => true
  | _ + 1, (_, false) :: _, [] => false
  | f + 1, (a, false) :: ts, c :: r => atomMatch a c && matchHereF f ts r
  | f + 1, (a, true) :: ts, s => (starSuffixes a s).any (matchHereF f ts)

/-- `re.search` (unanchored): try an anchored match at every position. -/
def rxSearch (toks : List (RAtom × Bool)) : Str → Bool
  | [] => matchHereF (toks.length + 1) toks []
  | c :: r => matchHereF (toks.length + 1) toks (c :: r) || rxSearch toks r

/-- Outcome of evaluating one condition against one record (the body of
the inner loop of `apply_conditions`): the condition holds, fails, raises
(`float(value)` raising `ValueError`), or uses a regex outside the
modelled fragment. -/
inductive COutcome
  | pass
  | fail
  | err
  | unmodelled
deriving DecidableEq, Repr

/-- One iteration of the condition loop of `apply_conditions`
(main.py:200-225, campaign.py:416-441): missing field fails; `=` compares
`str(field_value)` with the value; `>`/`<` require a numeric field value
(short-circuit: `float(value)` is only evaluated, and can only raise,
when the field value is numeric) and compare against `float(value)`;
`LIKE` compiles the value case-insensitively and searches
`str(field_value)`; any other operator leaves `matches_all` untouched,
i.e. passes. -/
def condEval (item : Record) (cond : Condition) : COutcome :=
  match List.lookup cond.field item with
  | none => .fail
  | some fv =>
    if cond.op = ("=".toList) then
      if pyStr fv = cond.value then .pass else .fail
    else if cond.op = (">".toList) then
      match fv with
      | .str _ => .fail
      | .int n =>
        match pyFloat cond.value with
        | .fin q => if (n : ℚ) > q then .pass else .fail
        | .pinf => .fail
        | .ninf => .pass
        | .nan => .fail
        | .badLit => .err
    else if cond.op = ("<".toList) then
      match fv with
      | .str _ => .fail
      | .int n =>
        match pyFloat cond.value with
        | .fin q => if (n : ℚ) < q then .pass else .fail
        | .pinf => .pass
        | .ninf => .fail
        | .nan => .fail
        | .badLit => .err
    else if cond.op = ("LIKE".toList) then
      match parseRx cond.value with
      | none => .unmodelled
      | some toks => if rxSearch toks (pyStr fv) then .pass else .fail
    else .pass

/-- The condition loop over one record: stop at the first condition that
does not pass (`break`), propagate a raise immediately. -/
def recordCheck (item : Record) : List Condition → COutcome
  | [] => .pass
  | c :: cs =>
    match condEval item c with
    | .pass => recordCheck item cs
    | .fail => .fail
    | .err => .err
    | .unmodelled => .unmodelled

/-- Outcome of `apply_conditions`: a filtered record list, an uncaught
`ValueError` from `float`, or a condition outside the modelled regex
fragment. -/
inductive FOutcome
  | ok (res : List Record)
  | err
  | unmodelled
deriving DecidableEq, Repr

/-- The record loop of `apply_conditions`: keep records whose every
condition passes; an exception aborts the whole call. -/
def applyConditionsGo : List Record → List Condition → FOutcome
  | [], _ => .ok []
  | r :: rs, conds =>
    match recordCheck r conds with
    | .pass =>
      match applyConditionsGo rs conds with
      | .ok l => .ok (r :: l)
      | .err => .err
      | .unmodelled => .unmodelled
    | .fail => applyConditionsGo rs conds
    | .err => .err
    | .unmodelled => .unmodelled

/-- `apply_conditions` (main.py:192-230, campaign.py:408-446): with no
conditions, return the input unchanged; otherwise keep exactly the
records satisfying every condition, in order. -/
def apply_conditions (data : List Record) (conds : List Condition) : FOutcome :=
  if conds.isEmpty then .ok data else applyConditionsGo data conds

/-- The built-in sample records of main.py (main.py:27-60). -/
def sample_data_main : List Record :=
  [ [ ("campaign_id".toList, PyVal.str ("CAMP_A".toList)),
      ("influenced_revenue".toList, PyVal.int 150000),
      ("impressions".toList, PyVal.int 100000),
      ("clicks".toList, PyVal.int 2500),
      ("channel".toList, PyVal.str ("WhatsApp".toList)),
      ("run_date".toList, PyVal.str ("2025-07-05".toList)) ],
    [ ("campaign_id".toList, PyVal.str ("CAMP_B".toList)),
      ("influenced_revenue".toList, PyVal.int 200000),
      ("impressions".toList, PyVal.int 80000),
      ("clicks".toList, PyVal.int 4000),
      ("channel".toList, PyVal.str ("Email".toList)),
      ("run_date".toList, PyVal.str ("2025-07-10".toList)) ],
    [ ("campaign_id".toList, PyVal.str ("CAMP_C".toList)),
      ("influenced_revenue".toList, PyVal.int 175000),
      ("impressions".toList, PyVal.int 120000),
      ("clicks".toList, PyVal.int 3600),
      ("channel".toList, PyVal.str ("SMS".toList)),
      ("run_date".toList, PyVal.str ("2025-07-15".toList)) ],
    [ ("campaign_id".toList, PyVal.str ("CAMP_D".toList)),
      ("influenced_revenue".toList, PyVal.int 90000),
      ("impressions".toList, PyVal.int 60000),
      ("clicks".toList, PyVal.int 1200),
      ("channel".toList, PyVal.str ("Push Notification".toList)),
      ("run_date".toList, PyVal.str ("2025-07-20".toList)) ] ]

/-- The built-in sample records of campaign.py (campaign.py:45-62):
the first two records only. -/
def sample_data_campaign : List Record :=
  [ [ ("campaign_id".toList, PyVal.str ("CAMP_A".toList)),
      ("influenced_revenue".toList, PyVal.int 150000),
      ("impressions".toList, PyVal.int 100000),
      ("clicks".toList, PyVal.int 2500),
      ("channel".toList, PyVal.str ("WhatsApp".toList)),
      ("run_date".toList, PyVal.str ("2025-07-05".toList)) ],
    [ ("campaign_id".toList, PyVal.str ("CAMP_B".toList)),
      ("influenced_revenue".toList, PyVal.int 200000),
      ("impressions".toList, PyVal.int 80000),
      ("clicks".toList, PyVal.int 4000),
      ("channel".toList, PyVal.str ("Email".toList)),
      ("run_date".toList, PyVal.str ("2025-07-10".toList)) ] ]

/-- A parsed JSON value as produced by `json.loads`.  `inf`, `ninf` and
`nan` model the `Infinity`/`-Infinity`/`NaN` literals that Python's
parser accepts; numbers are exact rationals (double rounding is not
modelled). -/
inductive JVal
  | null
  | bool (b : Bool)
  | num (q : ℚ)
  | str (s : Str)
  | arr (xs : List JVal)
  | obj (fields : List (Str × JVal))
  | inf
  | ninf
  | nan

/-- JSON whitespace (per the JSON grammar: space, tab, newline, return). -/
def isJsonWs (c : Char) : Bool :=
  c == ' ' || c == '\t' || c == '\n' || c == '\r'

/-- Skip JSON whitespace. -/
def jsonSkipWs (s : Str) : Str := s.dropWhile isJsonWs

/-- Hexadecimal digit value. -/
def hexVal (c : Char) : Option Nat :=
  if c.isDigit then some (c.toNat - 48)
  else if 'a' ≤ c && c ≤ 'f' then some (c.toNat - 87)
  else if 'A' ≤ c && c ≤ 'F' then some (c.toNat - 55)
  else none

/-- Parse the body of a JSON string after the opening quote: content and
rest after the closing quote.  Escapes are decoded; raw control characters
are rejected (strict mode); `\uXXXX` in the surrogate range is outside the
model (Lean characters cannot hold lone surrogates). -/
def jsonStringGo : Nat → Str → Option (Str × Str)
  | 0, _ => none
  | _ + 1, [] => none
  | f + 1, c :: r =>
    if c == '"' then some ([], r)
    else if c == '\\' then
      match r with
      | [] => none
      | e :: r2 =>
        if e == 'u' then
          match r2 with
          | h1 :: h2 :: h3 :: h4 :: r3 =>
            match hexVal h1, hexVal h2, hexVal h3, hexVal h4 with
            | some a, some b, some cc, some d =>
              let code := ((a * 16 + b) * 16 + cc) * 16 + d
              if 0xD800 ≤ code && code < 0xE000 then none
              else (jsonStringGo f r3).map (fun p => (Char.ofNat code :: p.1, p.2))
            | _, _, _, _ => none
          | _ => none
        else
          let dec : Option Char :=
            if e == '"' then some '"'
            else if e == '\\' then some '\\'
            else if e == '/' then some '/'
            else if e == 'b' then some '\x08'
            else if e == 'f' then some '\x0c'
            else if e == 'n' then some '\n'
            else if e == 'r' then some '\r'
            else if e == 't' then some '\t'
            else none
          match dec with
          | some ch => (jsonStringGo f r2).map (fun p => (ch :: p.1, p.2))
          | none => none
    else if c.toNat < 32 then none
    else (jsonStringGo f r).map (fun p => (c :: p.1, p.2))

/-- Tokenize a JSON number (regex `-?(0|[1-9]\d*)(\.\d+)?([eE][+-]?\d+)?`),
returning its exact value and the rest of the input. -/
def jsonNumber (s : Str) : Option (ℚ × Str) :=
  let sgn : Bool × Str :=
    match s with
    | '-' :: r => (true, r)
    | _ => (false, s)
  let t := sgn.2
  let ipPair : Option (Str × Str) :=
    match t with
    | '0' :: r => some (['0'], r)
    | c :: r =>
      if c.isDigit then some (c :: r.takeWhile Char.isDigit, r.dropWhile Char.isDigit)
      else none
    | [] => none
  match ipPair with
  | none => none
  | some (ip, r1) =>
    let fracPair : Str × Str :=
      match r1 with
      | '.' :: r2 =>
        let fd := r2.takeWhile Char.isDigit
        if fd.isEmpty then ([], r1) else (fd, r2.dropWhile Char.isDigit)
      | _ => ([], r1)
    let fd := fracPair.1
    let r3 := fracPair.2
    let expPair : Option (Bool × Str) × Str :=
      match r3 with
      | e :: r4 =>
        if e == 'e' || e == 'E' then
          let sgnExp : Bool × Str :=
            match r4 with
            | '+' :: r5 => (false, r5)
            | '-' :: r5 => (true, r5)
            | _ => (false, r4)
          let ed := sgnExp.2.takeWhile Char.isDigit
          if ed.isEmpty then (none, r3)
          else (some (sgnExp.1, ed), sgnExp.2.dropWhile Char.isDigit)
        else (none, r3)
      | [] => (none, r3)
    let mant : ℚ := (digitsVal ip : ℚ) + (digitsVal fd : ℚ) / ((10 : ℚ) ^ fd.length)
    let withExp : ℚ :=
      match expPair.1 with
      | none => mant
      | some (eneg, ed) =>
        mant * (10 : ℚ) ^ (if eneg then -(digitsVal ed : ℤ) else (digitsVal ed : ℤ))
    some ((if sgn.1 then -withExp else withExp), expPair.2)

/-- Parser mode: a value, or the element/member loops of arrays and
objects (the accumulated items so far). -/
inductive JMode
  | val
  | arrFirst
  | arrRest (acc : List JVal)
  | objFirst
  | objRest (acc : List (Str × JVal))

/-- Fuel-driven JSON parser (`json.loads` grammar, including the
`NaN`/`Infinity`/`-Infinity` extensions Python accepts by default).
Expects its input already stripped of leading whitespace; returns the
value and the unconsumed rest.  Every two nested calls consume at least
one character, so fuel `2*(length)+8` always suffices. -/
def jsonP : Nat → JMode → Str → Option (JVal × Str)
  | 0, _, _ => none
  | _ + 1, .val, [] => none
  | f + 1, .val, c :: r =>
    if c == '\x7b' then jsonP f .objFirst (jsonSkipWs r)
    else if c == '[' then jsonP f .arrFirst (jsonSkipWs r)
    else if c == '"' then (jsonStringGo (r.length + 1) r).map (fun p => (JVal.str p.1, p.2))
    else if ("null".toList).isPrefixOf (c :: r) then some (JVal.null, (c :: r).drop 4)
    else if ("true".toList).isPrefixOf (c :: r) then some (JVal.bool true, (c :: r).drop 4)
    else if ("false".toList).isPrefixOf (c :: r) then some (JVal.bool false, (c :: r).drop 5)
    else if ("NaN".toList).isPrefixOf (c :: r) then some (JVal.nan, (c :: r).drop 3)
    else if ("Infinity".toList).isPrefixOf (c :: r) then some (JVal.inf, (c :: r).drop 8)
    else if ("-Infinity".toList).isPrefixOf (c :: r) then some (JVal.ninf, (c :: r).drop 9)
    else (jsonNumber (c :: r)).map (fun p => (JVal.num p.1, p.2))
  | _ + 1, .arrFirst, ']' :: r => some (JVal.arr [], r)
  | f + 1, .arrFirst, s =>
    match jsonP f .val s with
    | some (v, r1) => jsonP f (.arrRest [v]) (jsonSkipWs r1)
    | none => none
  | f + 1, .arrRest acc, ',' :: r =>
    match jsonP f .val (jsonSkipWs r) with
    | some (v, r1) => jsonP f (.arrRest (acc ++ [v])) (jsonSkipWs r1)
    | none => none
  | _ + 1, .arrRest acc, ']' :: r => some (JVal.arr acc, r)
  | _ + 1, .arrRest _, _ => none
  | _ + 1, .objFirst, '\x7d' :: r => some (JVal.obj [], r)
  | f + 1, .objFirst, '"' :: r =>
    match jsonStringGo (r.length + 1) r with
    | some (k, r1) =>
      match jsonSkipWs r1 with
      | ':' :: r2 =>
        match jsonP f .val (jsonSkipWs r2) with
        | some (v, r3) => jsonP f (.objRest [(k, v)]) (jsonSkipWs r3)
        | none => none
      | _ => none
    | none => none
  | _ + 1, .objFirst, _ => none
  | f + 1, .objRest acc, ',' :: r =>
    match jsonSkipWs r with
    | '"' :: r0 =>
      match jsonStringGo (r0.length + 1) r0 with
      | some (k, r1) =>
        match jsonSkipWs r1 with
        | ':' :: r2 =>
          match jsonP f .val (jsonSkipWs r2) with
          | some (v, r3) => jsonP f (.objRest (acc ++ [(k, v)])) (jsonSkipWs r3)
          | none => none
        | _ => none
      | none => none
    | _ => none
  | _ + 1, .objRest acc, '\x7d' :: r => some (JVal.obj acc, r)
  | _ + 1, .objRest _, _ => none

/-- `json.loads`: parse one JSON document; surrounding whitespace is
allowed, trailing data is an error. -/
def jsonLoads (s : Str) : Option JVal :=
  match jsonP (2 * s.length + 8) .val (jsonSkipWs s) with
  | some (v, rest) => if (jsonSkipWs rest).isEmpty then some v else none
  | none => none

/-- Python truthiness of a parsed JSON value (`if json_data:`):
`None`, `False`, `0`, empty string/list/dict are falsy; `nan` and the
infinities are truthy. -/
def jsonTruthy : JVal → Bool
  | .null => false
  | .bool b => b
  | .num q => !(q == 0)
  | .str s => !s.isEmpty
  | .arr xs => !xs.isEmpty
  | .obj fs => !fs.isEmpty
  | .inf => true
  | .ninf => true
  | .nan => true

/-- The brace-delimited candidate of the regex `\{.*\}` (DOTALL, greedy):
the slice from the first `{` to the last `}` after it, if any.  With the
greedy `.*` there is at most one `findall` match. -/
def braceCandidate (q : Str) : Option Str :=
  match splitFirst ("\x7b".toList) q with
  | none => none
  | some (_, rest) =>
    match splitFirst ("\x7d".toList) rest.reverse with
    | none => none
    | some (_, revInit) => some ('\x7b' :: (revInit.reverse ++ ['\x7d']))

/-- The bracket-delimited candidate of the regex `\[.*\]`, likewise. -/
def bracketCandidate (q : Str) : Option Str :=
  match splitFirst ("[".toList) q with
  | none => none
  | some (_, rest) =>
    match splitFirst ("]".toList) rest.reverse with
    | none => none
    | some (_, revInit) => some ('[' :: (revInit.reverse ++ [']']))

/-- The per-candidate loop body of `extract_json_from_query`
(campaign.py:341-351): try `json.loads` on the match, and on failure
strip it, drop one trailing comma, and try once more. -/
def tryLoadCandidate (m : Str) : Option JVal :=
  match jsonLoads m with
  | some v => some v
  | none =>
    let cleaned0 := pyStrip m
    let cleaned := if cleaned0.getLast? == some ',' then cleaned0.dropLast else cleaned0
    jsonLoads cleaned

/-- `extract_json_from_query` (campaign.py:331-352): try the brace
pattern's candidate, then the bracket pattern's; `None` when neither
parses. -/
def extract_json_from_query (query : Str) : Option JVal :=
  match braceCandidate query with
  | some m =>
    match tryLoadCandidate m with
    | some v => some v
    | none =>
      match bracketCandidate query with
      | some m2 => tryLoadCandidate m2
      | none => none
  | none =>
    match bracketCandidate query with
    | some m2 => tryLoadCandidate m2
    | none => none

/-- The five tool handlers. -/
inductive HTag
  | dataTool
  | reportingTool
  | memoryTool
  | greeting
  | fallback
deriving DecidableEq, Repr

/-- The dispatch chain of `process_query` in main.py (main.py:295-307):
substring containment tests in order, defaulting to the fallback branch. -/
def selectHandlerMain (tool : Str) : HTag :=
  if pyIn ("data_tool".toList) tool then .dataTool
  else if pyIn ("reporting_tool".toList) tool then .reportingTool
  else if pyIn ("memory_tool".toList) tool then .memoryTool
  else if pyIn ("greeting".toList) tool then .greeting
  else .fallback

/-- The conditional-edge mapping of `_build_graph` (campaign.py:86-96)
keyed by the value `route_condition` returns (the tool label unchanged,
campaign.py:155-157).  A label outside the mapping selects no node: the
graph raises instead of running a handler (modelled as `none`). -/
def campaignRouteTarget (tool : Str) : Option HTag :=
  if tool = ("data_tool".toList) then some .dataTool
  else if tool = ("reporting_tool".toList) then some .reportingTool
  else if tool = ("memory_tool".toList) then some .memoryTool
  else if tool = ("greeting".toList) then some .greeting
  else if tool = ("fallback".toList) then some .fallback
  else none

/-- The raw data a reporting result carries: the JSON payload from the
query, or the built-in sample records. -/
inductive RawData
  | fromJson (j : JVal)
  | records (rs : List Record)

/-- A tool result (the `result` dict): one variant per branch, carrying
that branch's fields.  `memoryEmpty` is the canned no-memory result whose
`result`/`summary` strings are fixed in the source. -/
inductive ResultObj
  | dataTool (generatedQuery : Str) (structuredData : List Record) (summary : Str)
  | reportingMain (formattedOutput : Str) (rawData : List Record)
  | reportingCampaign (formattedOutput : Str) (dataSource : Str) (rawData : RawData)
  | memoryEmpty
  | memoryTool (previousQueries : List (Str × ResultObj)) (summary : Str)
  | greeting (response : Str)
  | fallback (response : Str)

/-- The `tool` tag of a result. -/
def ResultObj.tool : ResultObj → Str
  | .dataTool _ _ _ => "data_tool".toList
  | .reportingMain _ _ => "reporting_tool".toList
  | .reportingCampaign _ _ _ => "reporting_tool".toList
  | .memoryEmpty => "memory_tool".toList
  | .memoryTool _ _ => "memory_tool".toList
  | .greeting _ => "greeting".toList
  | .fallback _ => "fallback".toList

/-- One memory entry: `{"query": ..., "result": ...}`. -/
abbrev MemEntry := Str × ResultObj

/-- `add_to_memory` (main.py:62-66): if two entries are already held,
pop the oldest (index 0), then append the new entry. -/
def add_to_memory (mem : List MemEntry) (e : MemEntry) : List MemEntry :=
  (if 2 ≤ mem.length then mem.tail else mem) ++ [e]

/-- The generic greeting response (`handle_greeting`, main.py:275-287;
`process_greeting_node`, campaign.py:282-300, identical logic): a pure
case-insensitive substring match of the query against the fixed keyword
list; no LLM call. -/
def greetingKeywords : List Str :=
  [ "hi".toList, "hello".toList, "hey".toList,
    "good morning".toList, "good afternoon".toList, "good evening".toList ]

/-- The response string of the greeting handler. -/
def greetingResponse (query : Str) : Str :=
  if greetingKeywords.any (fun g => pyIn g (pyLower query)) then
    "Hello! I\x27m your data analytics assistant. How can I help you today?".toList
  else
    "I can help with campaign analytics queries like revenue, performance, CTR, etc.".toList

/-- The canned fallback response (main.py:304-307, campaign.py:302-312). -/
def fallbackResponse : Str :=
  "I can help with campaign analytics queries like revenue, performance, CTR, etc.".toList

/-- `process_query` in main.py (main.py:289-313), with the LLM provider
modelled as an oracle giving the text returned by the i-th
`get_llm_response` call of this query (each such call returns a string:
provider failures are caught inside, see `get_llm_response`).  Returns the
result, the new memory, and the number of provider calls issued; `none`
models an uncaught exception escaping `process_query` (an unparseable
`float` value inside `apply_conditions`, or a `LIKE` regex outside the
modelled fragment).  Call 0 is the routing classification
(`route_query`, main.py:89-102, reply normalized by `.strip().lower()`);
the data branch issues calls 1 (SQL generation) and 2 (summary); the
reporting branch issues call 1 (formatting); the memory branch issues
call 1 (summary) unless memory is empty; greeting and fallback issue no
further calls. -/
def process_query_main (oracle : Nat → Str) (mem : List MemEntry) (query : Str) :
    Option (ResultObj × List MemEntry × Nat) :=
  let tool := pyLower (pyStrip (oracle 0))
  let branch : Option (ResultObj × Nat) :=
    match selectHandlerMain tool with
    | .dataTool =>
      let sql := oracle 1
      match apply_conditions sample_data_main (parse_sql_conditions sql) with
      | .ok filtered => some (.dataTool sql filtered (oracle 2), 3)
      | .err => none
      | .unmodelled => none
    | .reportingTool => some (.reportingMain (oracle 1) sample_data_main, 2)
    | .memoryTool =>
      if mem.isEmpty then some (.memoryEmpty, 1)
      else some (.memoryTool mem (oracle 1), 2)
    | .greeting => some (.greeting (greetingResponse query), 1)
    | .fallback => some (.fallback fallbackResponse, 1)
  match branch with
  | none => none
  | some (r, calls) =>
    let mem2 :=
      if r.tool = ("data_tool".toList) ∨ r.tool = ("reporting_tool".toList) then
        add_to_memory mem (query, r)
      else mem
    some (r, mem2, calls)

/-- The tool label computed by `route_query_node` (campaign.py:118-153):
normalize the classifier reply, then, if the extracted JSON payload is
truthy and the reply does not contain `"reporting"`, force
`reporting_tool`. -/
def route_query_node_tool (jsonData : Option JVal) (reply : Str) : Str :=
  let tool := pyLower (pyStrip reply)
  if (match jsonData with | some j => jsonTruthy j | none => false)
      && !(pyIn ("reporting".toList) tool) then
    "reporting_tool".toList
  else tool

/-- `process_query` in campaign.py (campaign.py:448-463): build the
initial state — with `memory = []` on every call — and run the graph:
extract JSON, route, dispatch through the conditional-edge mapping, run
the selected node, and return the state's `result` (the `update_memory`
node only mutates the discarded state).  The oracle gives the i-th LLM
chain reply of this invocation (0 = routing; the data branch uses 1 and
2, the reporting branch uses 1, the memory branch uses 1 when memory is
non-empty — which can never happen here).  `none` models an exception:
an unmapped label in the edge mapping, an unparseable `float` value, or
a `LIKE` regex outside the modelled fragment. -/
def process_query_campaign (oracle : Nat → Str) (query : Str) : Option ResultObj :=
  let memory : List MemEntry := []
  let jsonData := extract_json_from_query query
  let tool := route_query_node_tool jsonData (oracle 0)
  match campaignRouteTarget tool with
  | none => none
  | some .dataTool =>
    let sql := oracle 1
    match apply_conditions sample_data_campaign (parse_sql_conditions sql) with
    | .ok filtered => some (.dataTool sql filtered (oracle 2))
    | .err => none
    | .unmodelled => none
  | some .reportingTool =>
    match jsonData with
    | none =>
      some (.reportingCampaign (oracle 1)
        ("sample data (no JSON provided in query)".toList) (.records sample_data_campaign))
    | some j =>
      some (.reportingCampaign (oracle 1) ("JSON data from your query".toList) (.fromJson j))
  | some .memoryTool =>
    if memory.isEmpty then some .memoryEmpty
    else some (.memoryTool memory (oracle 1))
  | some .greeting => some (.greeting (greetingResponse query))
  | some .fallback => some (.fallback fallbackResponse)

/-- One chat message (role, content). -/
structure ChatMsg where
  role : Str
  content : Str

/-- The message list `get_llm_response` builds (main.py:70-73). -/
def mkMessages (system : Option Str) (prompt : Str) : List ChatMsg :=
  (match system with
   | some s => [⟨"system".toList, s⟩]
   | none => []) ++ [⟨"user".toList, prompt⟩]

/-- `get_llm_response` (main.py:68-87): the provider transaction
(request, HTTP status check, JSON field extraction) is modelled as a
function from the message list to `Except`, where `.error e` is any
exception with text `str(e)`.  The whole transaction sits inside
`try/except Exception`, so the function always returns a string: the
reply content on success, and `"Error calling Mistral AI: " + str(e)` on
any failure. -/
def get_llm_response (provider : List ChatMsg → Except Str Str)
    (prompt : Str) (system : Option Str) : Str :=
  match provider (mkMessages system prompt) with
  | .ok content => content
  | .error e => ("Error calling Mistral AI: ".toList) ++ e

/-! ## Lemmas about the record filter -/

theorem recordCheck_pass_iff (item : Record) (conds : List Condition) :
    recordCheck item conds = COutcome.pass ↔ ∀ c ∈ conds, condEval item c = COutcome.pass := by
  induction conds with
  | nil => simp [recordCheck]
  | cons c cs ih =>
    simp only [recordCheck]
    cases h : condEval item c with
    | pass => simp [h, ih, List.forall_mem_cons]
    | fail => simp [h, List.forall_mem_cons]
    | err => simp [h, List.forall_mem_cons]
    | unmodelled => simp [h, List.forall_mem_cons]

theorem applyConditionsGo_ok (conds : List Condition) :
    ∀ data res : List Record,
      applyConditionsGo data conds = FOutcome.ok res →
      res = data.filter (fun r => recordCheck r conds == COutcome.pass) := by
  intro data
  induction data with
  | nil =>
    intro res h
    simp only [applyConditionsGo] at h
    cases h
    simp
  | cons r rs ih =>
    intro res h
    simp only [applyConditionsGo] at h
    cases hr : recordCheck r conds with
    | pass =>
      rw [hr] at h
      cases hgo : applyConditionsGo rs conds with
      | ok l =>
        rw [hgo] at h
        cases h
        rw [List.filter_cons_of_pos (by simp [hr])]
        rw [← ih l hgo]
      | err => rw [hgo] at h; cases h
      | unmodelled => rw [hgo] at h; cases h
    | fail =>
      rw [hr] at h
      rw [List.filter_cons_of_neg (by simp [hr])]
      exact ih res h
    | err => rw [hr] at h; cases h
    | unmodelled => rw [hr] at h; cases h

/-! ## Lemmas about the bounded memory -/

theorem add_to_memory_length (mem : List MemEntry) (e : MemEntry) (h : mem.length ≤ 2) :
    (add_to_memory mem e).length ≤ 2 := by
  unfold add_to_memory
  by_cases h2 : 2 ≤ mem.length
  · rw [if_pos h2]
    simp only [List.length_append, List.length_tail, List.length_cons, List.length_nil]
    omega
  · rw [if_neg h2]
    simp only [List.length_append, List.length_cons, List.length_nil]
    omega

theorem foldl_add_to_memory_le (es : List MemEntry) :
    ∀ mem : List MemEntry, mem.length ≤ 2 → (es.foldl add_to_memory mem).length ≤ 2 := by
  induction es with
  | nil => intro mem h; simpa using h
  | cons e es ih =>
    intro mem h
    simpa using ih _ (add_to_memory_length mem e h)

/-! ## Helper facts about result tags -/

theorem memoryEmpty_not_recorded :
    ¬(ResultObj.memoryEmpty.tool = ("data_tool".toList)
      ∨ ResultObj.memoryEmpty.tool = ("reporting_tool".toList)) := by decide

theorem memoryTool_not_recorded (pq : List MemEntry) (s : Str) :
    ¬((ResultObj.memoryTool pq s).tool = ("data_tool".toList)
      ∨ (ResultObj.memoryTool pq s).tool = ("reporting_tool".toList)) := by
  simp [ResultObj.tool]

theorem greeting_not_recorded (r : Str) :
    ¬((ResultObj.greeting r).tool = ("data_tool".toList)
      ∨ (ResultObj.greeting r).tool = ("reporting_tool".toList)) := by
  simp [ResultObj.tool]

theorem fallback_not_recorded (r : Str) :
    ¬((ResultObj.fallback r).tool = ("data_tool".toList)
      ∨ (ResultObj.fallback r).tool = ("reporting_tool".toList)) := by
  simp [ResultObj.tool]

/-! ## Claim theorems -/

/-- C4: filtering any list of records with an empty condition list returns
the input list itself: same records, same order, same identity
(`apply_conditions` returns `data` unchanged when `conditions` is empty). -/
theorem c4_empty_conditions_identity (data : List Record) :
    apply_conditions data [] = FOutcome.ok data := rfl

/-- C7: `get_llm_response` never raises: the whole provider transaction is
inside `try/except Exception`, so for every provider outcome the function
returns a string — the reply on success, and the descriptive string
`"Error calling Mistral AI: " + str(e)` when the request fails for any
reason, degrading the pipeline instead of terminating it. -/
theorem c7_provider_error_degrades (provider : List ChatMsg → Except Str Str)
    (prompt : Str) (system : Option Str) :
    (∀ e, provider (mkMessages system prompt) = Except.error e →
      get_llm_response provider prompt system = ("Error calling Mistral AI: ".toList) ++ e)
    ∧ (∀ s, provider (mkMessages system prompt) = Except.ok s →
      get_llm_response provider prompt system = s) := by
  constructor <;> intro x h <;> simp [get_llm_response, h]

/-- C7 witness: a provider that fails with `str(e) = "boom"` yields the
descriptive error string. -/
theorem c7_witness :
    get_llm_response (fun _ => Except.error ("boom".toList)) ("p".toList) none
      = ("Error calling Mistral AI: boom".toList) := by
  have h := (c7_provider_error_degrades (fun _ => Except.error ("boom".toList))
    ("p".toList) none).1 ("boom".toList) rfl
  rw [h]
  decide

/-- C3: the bounded memory invariant: (a) after any sequence of recording
operations starting from the empty memory, at most 2 entries are held;
(b) recording E1, E2, E3 in order gives exactly [E2, E3] — recording into
a full memory pops the oldest entry (index 0) and appends the new one;
(c) a query handled by the memory, greeting or fallback branch leaves the
memory unchanged — only `data_tool`/`reporting_tool` results are recorded
by `process_query`. -/
theorem c3_bounded_memory :
    (∀ es : List MemEntry, (es.foldl add_to_memory []).length ≤ 2)
    ∧ (∀ e1 e2 e3 : MemEntry,
        add_to_memory (add_to_memory (add_to_memory [] e1) e2) e3 = [e2, e3])
    ∧ (∀ (oracle : Nat → Str) (mem : List MemEntry) (query : Str),
        (selectHandlerMain (pyLower (pyStrip (oracle 0))) = HTag.memoryTool
          ∨ selectHandlerMain (pyLower (pyStrip (oracle 0))) = HTag.greeting
          ∨ selectHandlerMain (pyLower (pyStrip (oracle 0))) = HTag.fallback) →
        (process_query_main oracle mem query).map (fun x => x.2.1) = some mem) := by
  refine ⟨fun es => foldl_add_to_memory_le es [] (by simp), ?_, ?_⟩
  · intro e1 e2 e3
    rfl
  · intro oracle mem query h
    rcases h with h | h | h
    · by_cases hm : mem.isEmpty
      · simp [process_query_main, h, hm]
        exact fun hP => absurd hP memoryEmpty_not_recorded
      · simp [process_query_main, h, hm]
        exact fun hP => absurd hP (memoryTool_not_recorded mem (oracle 1))
    · simp [process_query_main, h]
      exact fun hP => absurd hP (greeting_not_recorded (greetingResponse query))
    · simp [process_query_main, h]
      exact fun hP => absurd hP (fallback_not_recorded fallbackResponse)

/-- C3 witness: part (a) at a concrete entry sequence, part (b) at
concrete entries, part (c) at a concrete oracle/memory/query. -/
theorem c3_witness :
    (([(("a".toList), ResultObj.memoryEmpty), (("b".toList), ResultObj.memoryEmpty),
        (("c".toList), ResultObj.memoryEmpty)].foldl add_to_memory []).length ≤ 2)
    ∧ (add_to_memory (add_to_memory (add_to_memory [] (("a".toList), ResultObj.memoryEmpty))
        (("b".toList), ResultObj.memoryEmpty)) (("c".toList), ResultObj.memoryEmpty)
        = [(("b".toList), ResultObj.memoryEmpty), (("c".toList), ResultObj.memoryEmpty)])
    ∧ (process_query_main (fun _ => ("greeting".toList))
        [(("q".toList), ResultObj.memoryEmpty)] ("Hi there".toList)).map (fun x => x.2.1)
        = some [(("q".toList), ResultObj.memoryEmpty)] :=
  ⟨c3_bounded_memory.1 _, c3_bounded_memory.2.1 _ _ _,
    c3_bounded_memory.2.2 (fun _ => ("greeting".toList)) _ _ (Or.inr (Or.inl (by decide)))⟩

/-- C2 counterexample: the claim quantifies over every condition list, but
a `>` condition whose value Python's `float` rejects makes
`apply_conditions` raise `ValueError` on a record with a numeric field
value — the filter neither keeps nor drops the record, so the stated
keep-iff-satisfies biconditional fails at this input. -/
theorem c2_counterexample :
    apply_conditions [[(("clicks".toList), PyVal.int 2500)]]
      [⟨"clicks".toList, ">".toList, "ABC".toList⟩] = FOutcome.err := rfl

/-- C2 (amended): whenever `apply_conditions` returns a record list (no
`ValueError` from `float(value)` and every `LIKE` pattern inside the
modelled regex fragment), that list is exactly the input filtered, in
order, by the conjunction of the conditions: a record is kept iff it
satisfies every condition, with missing fields failing, `=` comparing
`str(field_value)` to the value, `>`/`<` requiring a numeric field value
passing the comparison against `float(value)`, and `LIKE` doing an
unanchored case-insensitive regex search on `str(field_value)` (the
per-operator semantics of `condEval`). -/
theorem c2_filter_iff (data : List Record) (conds : List Condition) (res : List Record)
    (hok : apply_conditions data conds = FOutcome.ok res) :
    res = data.filter (fun r => recordCheck r conds == COutcome.pass)
    ∧ ∀ r, r ∈ res ↔ r ∈ data ∧ ∀ c ∈ conds, condEval r c = COutcome.pass := by
  have hres : res = data.filter (fun r => recordCheck r conds == COutcome.pass) := by
    unfold apply_conditions at hok
    by_cases hc : conds.isEmpty
    · rw [if_pos (by simpa using hc)] at hok
      cases hok
      have hnil : conds = [] := by simpa using hc
      subst hnil
      simp [recordCheck]
    · rw [if_neg (by simpa using hc)] at hok
      exact applyConditionsGo_ok conds data res hok
  refine ⟨hres, fun r => ?_⟩
  rw [hres]
  simp [List.mem_filter, recordCheck_pass_iff]

/-- C2 witness: filtering the campaign sample records by
`channel = 'Email'` returns exactly the second record, which is the
filtered list the theorem describes. -/
theorem c2_witness :
    (apply_conditions sample_data_campaign
        [⟨"channel".toList, "=".toList, "Email".toList⟩]
      = FOutcome.ok (sample_data_campaign.drop 1))
    ∧ sample_data_campaign.drop 1
      = sample_data_campaign.filter
          (fun r => recordCheck r [⟨"channel".toList, "=".toList, "Email".toList⟩]
            == COutcome.pass) :=
  ⟨rfl, (c2_filter_iff sample_data_campaign
      [⟨"channel".toList, "=".toList, "Email".toList⟩]
      (sample_data_campaign.drop 1) rfl).1⟩

/-- C5 counterexample: the override is `if json_data and ...`, a Python
truthiness test, so a query whose embedded JSON payload is a valid but
falsy value — here the empty object — does not trigger it: with
classifier reply `"data_tool"` the pipeline runs the data handler, not
reporting_tool. -/
theorem c5_counterexample :
    extract_json_from_query ("Format this: \x7b\x7d".toList) = some (JVal.obj [])
    ∧ (process_query_campaign (fun _ => ("data_tool".toList))
        ("Format this: \x7b\x7d".toList)).map (fun r => ResultObj.tool r)
      = some ("data_tool".toList)
    ∧ ("data_tool".toList) ≠ ("reporting_tool".toList) :=
  ⟨rfl, rfl, by decide⟩

/-- C5 (amended): when the extracted JSON payload is truthy and the
normalized classifier reply does not contain the substring `"reporting"`,
`route_query_node` forces the label to `reporting_tool`; queries whose
embedded payload is falsy are routed by the classifier reply alone. -/
theorem c5_truthy_json_override (j : JVal) (reply : Str)
    (hj : jsonTruthy j = true)
    (hr : pyIn ("reporting".toList) (pyLower (pyStrip reply)) = false) :
    route_query_node_tool (some j) reply = ("reporting_tool".toList) := by
  simp at hr
  simp [route_query_node_tool, hj, hr]

/-- C5 witness: a non-empty JSON object with classifier reply
`"data_tool"` is overridden to `reporting_tool`. -/
theorem c5_witness :
    route_query_node_tool (some (JVal.obj [(("a".toList), JVal.num 1)]))
      ("data_tool".toList) = ("reporting_tool".toList) :=
  c5_truthy_json_override (JVal.obj [(("a".toList), JVal.num 1)])
    ("data_tool".toList) rfl (by decide)

/-- C6 counterexample: in campaign.py an unrecognized classifier reply is
not handled by the fallback handler: `route_condition` returns the label
unchanged and the conditional-edge mapping has no entry for it, so the
graph raises (modelled `none`) — while the main.py chain would fall back. -/
theorem c6_counterexample :
    process_query_campaign (fun _ => ("banana".toList))
      ("What is quantum gravity".toList) = none
    ∧ selectHandlerMain ("banana".toList) = HTag.fallback :=
  ⟨rfl, rfl⟩

/-- C6 (amended): the main.py substring chain always selects exactly one
of the five handlers, mapping any reply containing none of the four tool
substrings to fallback; the campaign.py edge mapping selects no handler
for a label outside the five exact labels (the graph raises instead of
falling back). -/
theorem c6_dispatch (t : Str) :
    (pyIn ("data_tool".toList) t = false → pyIn ("reporting_tool".toList) t = false →
      pyIn ("memory_tool".toList) t = false → pyIn ("greeting".toList) t = false →
      selectHandlerMain t = HTag.fallback)
    ∧ (t ≠ ("data_tool".toList) → t ≠ ("reporting_tool".toList) →
      t ≠ ("memory_tool".toList) → t ≠ ("greeting".toList) →
      t ≠ ("fallback".toList) → campaignRouteTarget t = none) := by
  constructor
  · intro h1 h2 h3 h4
    simp at h1 h2 h3 h4
    simp [selectHandlerMain, h1, h2, h3, h4]
  · intro h1 h2 h3 h4 h5
    simp at h1 h2 h3 h4 h5
    simp [campaignRouteTarget, h1, h2, h3, h4, h5]

/-- C6 witness: the unrecognized reply `"banana"` falls back in main.py
and selects no node in campaign.py. -/
theorem c6_witness :
    selectHandlerMain ("banana".toList) = HTag.fallback
    ∧ campaignRouteTarget ("banana".toList) = none :=
  ⟨(c6_dispatch ("banana".toList)).1 (by decide) (by decide) (by decide) (by decide),
    (c6_dispatch ("banana".toList)).2 (by decide) (by decide) (by decide) (by decide) (by decide)⟩

/-- C8: in campaign.py, `process_query` rebuilds the graph state with
`memory = []` on every invocation, so a memory-recall query always sees an
empty memory and returns the canned no-memory result, no matter what
earlier queries were processed; in main.py, by contrast, a recorded entry
survives the invocation in `self.memory` (here: a reporting query's entry
is present in the returned memory, available to later queries). -/
theorem c8_campaign_memory_reset :
    process_query_campaign (fun _ => ("memory_tool".toList))
      ("Summarize the previous results".toList) = some ResultObj.memoryEmpty
    ∧ (process_query_main (fun _ => ("reporting_tool".toList)) []
        ("Format this JSON data as a table".toList)).map (fun x => x.2.1)
      = some [(("Format this JSON data as a table".toList),
          ResultObj.reportingMain ("reporting_tool".toList) sample_data_main)] :=
  ⟨rfl, rfl⟩

/-- C9 counterexample: processing `"Good Morning!"` in main.py issues one
provider call — the routing classification in `route_query` — even when
the reply routes it to the greeting handler, so it is not handled
"without any call to the LLM provider being issued anywhere". -/
theorem c9_counterexample :
    process_query_main (fun _ => ("greeting".toList)) [] ("Good Morning!".toList)
      = some (ResultObj.greeting
          ("Hello! I\x27m your data analytics assistant. How can I help you today?".toList),
          [], 1)
    ∧ (1 : Nat) ≠ 0 :=
  ⟨rfl, by decide⟩

/-- C9 (amended): whenever the classifier reply routes to the greeting
branch, processing `"Good Morning!"` ends in the greeting handler, which
is a pure case-insensitive substring match against the fixed keyword list
(it matches `good morning`), makes no provider call of its own, and
leaves memory untouched — the total number of provider calls is exactly
the one routing call. -/
theorem c9_greeting_one_call (oracle : Nat → Str) (mem : List MemEntry)
    (h : selectHandlerMain (pyLower (pyStrip (oracle 0))) = HTag.greeting) :
    process_query_main oracle mem ("Good Morning!".toList)
      = some (ResultObj.greeting
          ("Hello! I\x27m your data analytics assistant. How can I help you today?".toList),
          mem, 1) := by
  have hresp : greetingResponse ("Good Morning!".toList)
      = ("Hello! I\x27m your data analytics assistant. How can I help you today?".toList) := by
    decide
  simp only [process_query_main, h]
  rw [if_neg (greeting_not_recorded (greetingResponse ("Good Morning!".toList)))]
  rw [hresp]

/-- C9 witness: a concrete oracle whose reply is `greeting` and a
non-empty memory. -/
theorem c9_witness :
    process_query_main (fun _ => (" Greeting ".toList))
      [(("q".toList), ResultObj.memoryEmpty)] ("Good Morning!".toList)
      = some (ResultObj.greeting
          ("Hello! I\x27m your data analytics assistant. How can I help you today?".toList),
          [(("q".toList), ResultObj.memoryEmpty)], 1) :=
  c9_greeting_one_call (fun _ => (" Greeting ".toList))
    [(("q".toList), ResultObj.memoryEmpty)] (by decide)

/-! ## Provenance lemmas: extracted field names are substrings of the
upper-cased query, hence contain no lowercase letters -/

theorem lookup_some_val_mem (k : Char) (l : List (Char × Char)) (u : Char)
    (h : l.lookup k = some u) : u ∈ l.map Prod.snd := by
  induction l with
  | nil => simp [List.lookup] at h
  | cons p ps ih =>
    obtain ⟨k1, v1⟩ := p
    rw [List.lookup] at h
    by_cases hk : k == k1
    · rw [hk] at h
      cases h
      simp
    · rw [Bool.not_eq_true] at hk
      rw [hk] at h
      simpa using Or.inr (ih h)

theorem pyUpperChar_ne (x k : Char) (hk : (casePairs.lookup k).isSome = true) :
    pyUpperChar x ≠ k := by
  unfold pyUpperChar
  cases h : casePairs.lookup x with
  | some u =>
    simp only [Option.getD_some]
    have hu := lookup_some_val_mem x casePairs u h
    have hvals : ∀ v ∈ casePairs.map Prod.snd, casePairs.lookup v = none := by decide
    intro heq
    rw [heq] at hu
    rw [hvals k hu] at hk
    simp at hk
  | none =>
    simp only [Option.getD_none]
    intro heq
    rw [heq] at h
    rw [h] at hk
    simp at hk

theorem splitFirst_some_mem (pat : Str) :
    ∀ s a b, splitFirst pat s = some (a, b) → (∀ x ∈ a, x ∈ s) ∧ (∀ x ∈ b, x ∈ s) := by
  intro s
  induction s with
  | nil =>
    intro a b h
    rw [splitFirst] at h
    by_cases hp : pat.isEmpty
    · rw [if_pos hp] at h
      cases h
      simp
    · rw [if_neg hp] at h
      cases h
  | cons c rest ih =>
    intro a b h
    rw [splitFirst] at h
    by_cases hp : pat.isPrefixOf (c :: rest)
    · rw [if_pos hp] at h
      cases h
      exact ⟨by simp, fun x hx => List.mem_of_mem_drop hx⟩
    · rw [if_neg hp] at h
      cases hs : splitFirst pat rest with
      | none => rw [hs] at h; cases h
      | some p =>
        obtain ⟨a1, b1⟩ := p
        have hihs := ih a1 b1 hs
        rw [hs] at h
        cases h
        constructor
        · intro x hx
          rcases List.mem_cons.mp hx with hx | hx
          · simp [hx]
          · exact List.mem_cons_of_mem _ (hihs.1 x hx)
        · exact fun x hx => List.mem_cons_of_mem _ (hihs.2 x hx)

theorem pyStrip_subset (s : Str) : ∀ x ∈ pyStrip s, x ∈ s := by
  intro x hx
  unfold pyStrip at hx
  rw [List.mem_reverse] at hx
  have h1 := (List.dropWhile_suffix isPySpace).subset hx
  rw [List.mem_reverse] at h1
  exact (List.dropWhile_suffix isPySpace).subset h1

theorem dropCaseless_some_mem (lit : Str) :
    ∀ s t, dropCaseless lit s = some t → ∀ x ∈ t, x ∈ s := by
  induction lit with
  | nil =>
    intro s t h
    rw [dropCaseless] at h
    cases h
    exact fun x hx => hx
  | cons l ls ih =>
    intro s t h
    cases s with
    | nil => rw [dropCaseless] at h; cases h
    | cons c cs =>
      rw [dropCaseless] at h
      by_cases hc : pyLowerChar c == pyLowerChar l
      · rw [if_pos hc] at h
        exact fun x hx => List.mem_cons_of_mem _ (ih cs t h x hx)
      · rw [if_neg hc] at h
        cases h

theorem sepTail_some_mem (lit r1 t : Str) (h : sepTail lit r1 = some t) :
    ∀ x ∈ t, x ∈ r1 := by
  cases hd : dropCaseless lit r1 with
  | none => simp [sepTail, hd] at h
  | some r2 =>
    cases r2 with
    | nil => simp [sepTail, hd] at h
    | cons d r3 =>
      by_cases hsp : isPySpace d
      · simp only [sepTail, hd, if_pos hsp] at h
        cases h
        intro x hx
        have h3 := (List.dropWhile_suffix isPySpace).subset hx
        exact dropCaseless_some_mem lit r1 (d :: r3) hd x (List.mem_cons_of_mem _ h3)
      · simp [sepTail, hd, hsp] at h

theorem matchSep_some_mem (s t : Str) (h : matchSep s = some t) : ∀ x ∈ t, x ∈ s := by
  cases s with
  | nil => simp [matchSep] at h
  | cons c rest =>
    by_cases hsp : isPySpace c
    · have hsub : ∀ x ∈ rest.dropWhile isPySpace, x ∈ c :: rest := fun x hx =>
        List.mem_cons_of_mem _ ((List.dropWhile_suffix isPySpace).subset hx)
      cases ha : sepTail ("AND".toList) (rest.dropWhile isPySpace) with
      | some t1 =>
        simp only [matchSep, if_pos hsp, ha] at h
        cases h
        exact fun x hx => hsub x (sepTail_some_mem _ _ _ ha x hx)
      | none =>
        simp only [matchSep, if_pos hsp, ha] at h
        exact fun x hx => hsub x (sepTail_some_mem _ _ _ h x hx)
    · simp [matchSep, hsp] at h

theorem reSplitGo_mem :
    ∀ (fuel : Nat) (acc s part : Str), part ∈ reSplitGo fuel acc s →
      ∀ x ∈ part, x ∈ acc ∨ x ∈ s := by
  intro fuel
  induction fuel with
  | zero =>
    intro acc s part hp x hx
    rw [reSplitGo] at hp
    rcases List.mem_singleton.mp hp with rfl
    exact Or.inl (List.mem_reverse.mp hx)
  | succ fuel ih =>
    intro acc s part hp x hx
    cases s with
    | nil =>
      rw [reSplitGo] at hp
      rcases List.mem_singleton.mp hp with rfl
      exact Or.inl (List.mem_reverse.mp hx)
    | cons c r =>
      rw [reSplitGo] at hp
      cases hm : matchSep (c :: r) with
      | some t =>
        rw [hm] at hp
        rcases List.mem_cons.mp hp with rfl | hp2
        · exact Or.inl (List.mem_reverse.mp hx)
        · rcases ih [] t part hp2 x hx with h0 | h0
          · cases h0
          · exact Or.inr (matchSep_some_mem _ _ hm x h0)
      | none =>
        rw [hm] at hp
        rcases ih (c :: acc) r part hp x hx with h0 | h0
        · rcases List.mem_cons.mp h0 with rfl | h0
          · exact Or.inr (List.mem_cons_self _ _)
          · exact Or.inl h0
        · exact Or.inr (List.mem_cons_of_mem _ h0)

theorem searchFirst_some (f : Str → Option (Str × Str)) :
    ∀ s p, searchFirst f s = some p → ∃ t, (∀ x ∈ t, x ∈ s) ∧ f t = some p := by
  intro s
  induction s with
  | nil =>
    intro p h
    rw [searchFirst] at h
    exact ⟨[], by simp, h⟩
  | cons c r ih =>
    intro p h
    rw [searchFirst] at h
    cases hf : f (c :: r) with
    | some q =>
      rw [hf] at h
      cases h
      exact ⟨c :: r, fun x hx => hx, hf⟩
    | none =>
      rw [hf] at h
      rcases ih p h with ⟨t, hsub, hft⟩
      exact ⟨t, fun x hx => List.mem_cons_of_mem _ (hsub x hx), hft⟩

theorem tryPatStrEq_some_field (s fld v : Str) (h : tryPatStrEq s = some (fld, v)) :
    ∀ x ∈ fld, x ∈ s := by
  have hf : fld = s.takeWhile isWordChar := by
    unfold tryPatStrEq at h
    dsimp only at h
    repeat' split at h
    all_goals (cases h; try rfl)
  intro x hx
  rw [hf] at hx
  exact (List.takeWhile_prefix isWordChar).subset hx

theorem tryPatNum_some_field (opc : Char) (s fld v : Str)
    (h : tryPatNum opc s = some (fld, v)) : ∀ x ∈ fld, x ∈ s := by
  have hf : fld = s.takeWhile isWordChar := by
    unfold tryPatNum at h
    dsimp only at h
    repeat' split at h
    all_goals (cases h; try rfl)
  intro x hx
  rw [hf] at hx
  exact (List.takeWhile_prefix isWordChar).subset hx

theorem tryPatLikeGo_some_field (run s : Str) :
    ∀ k fld v, tryPatLikeGo run s k = some (fld, v) → ∃ m, fld = run.take m := by
  intro k
  induction k with
  | zero => intro fld v h; rw [tryPatLikeGo] at h; cases h
  | succ k ih =>
    intro fld v h
    rw [tryPatLikeGo] at h
    cases hl : likeTail (s.drop (k + 1)) with
    | some v2 =>
      rw [hl] at h
      cases h
      exact ⟨k + 1, rfl⟩
    | none =>
      rw [hl] at h
      exact ih fld v h

theorem tryPatLike_some_field (s fld v : Str) (h : tryPatLike s = some (fld, v)) :
    ∀ x ∈ fld, x ∈ s := by
  unfold tryPatLike at h
  dsimp only at h
  split at h
  · cases h
  · rcases tryPatLikeGo_some_field _ _ _ _ _ h with ⟨m, hm⟩
    intro x hx
    rw [hm] at hx
    exact (List.takeWhile_prefix isWordChar).subset (List.take_subset m _ hx)

theorem mkCondition_field (p f v : Str) : (mkCondition p f v).field = f := by
  unfold mkCondition
  repeat' split
  all_goals rfl

theorem searchFirst_field_mem (f : Str → Option (Str × Str))
    (hf : ∀ t fld v, f t = some (fld, v) → ∀ x ∈ fld, x ∈ t)
    (P fld v : Str) (h : searchFirst f P = some (fld, v)) : ∀ x ∈ fld, x ∈ P := by
  rcases searchFirst_some f P (fld, v) h with ⟨t, hsub, hft⟩
  exact fun x hx => hsub x (hf t fld v hft x hx)

theorem condFromPart_field_mem (part : Str) (cond : Condition)
    (h : condFromPart part = some cond) : ∀ x ∈ cond.field, x ∈ part := by
  have hsub2 : ∀ x ∈ (if (pyStrip part).getLast? == some ';' then
      (pyStrip part).dropLast else pyStrip part), x ∈ part := by
    intro x hx
    by_cases hc : (pyStrip part).getLast? == some ';'
    · rw [if_pos hc] at hx
      exact pyStrip_subset part x ((List.dropLast_prefix _).subset hx)
    · rw [if_neg hc] at hx
      exact pyStrip_subset part x hx
  unfold condFromPart at h
  dsimp only at h
  cases h1 : searchFirst tryPatStrEq
      (if (pyStrip part).getLast? == some ';' then (pyStrip part).dropLast else pyStrip part) with
  | some p =>
    obtain ⟨f, v⟩ := p
    rw [h1] at h
    cases h
    rw [mkCondition_field]
    exact fun x hx => hsub2 x (searchFirst_field_mem _ tryPatStrEq_some_field _ _ _ h1 x hx)
  | none =>
    rw [h1] at h
    cases h2 : searchFirst (tryPatNum '=')
        (if (pyStrip part).getLast? == some ';' then (pyStrip part).dropLast else pyStrip part) with
    | some p =>
      obtain ⟨f, v⟩ := p
      rw [h2] at h
      cases h
      rw [mkCondition_field]
      exact fun x hx => hsub2 x (searchFirst_field_mem _ (tryPatNum_some_field '=') _ _ _ h2 x hx)
    | none =>
      rw [h2] at h
      cases h3 : searchFirst (tryPatNum '>')
          (if (pyStrip part).getLast? == some ';' then (pyStrip part).dropLast else pyStrip part) with
      | some p =>
        obtain ⟨f, v⟩ := p
        rw [h3] at h
        cases h
        rw [mkCondition_field]
        exact fun x hx => hsub2 x (searchFirst_field_mem _ (tryPatNum_some_field '>') _ _ _ h3 x hx)
      | none =>
        rw [h3] at h
        cases h4 : searchFirst (tryPatNum '<')
            (if (pyStrip part).getLast? == some ';' then (pyStrip part).dropLast else pyStrip part) with
        | some p =>
          obtain ⟨f, v⟩ := p
          rw [h4] at h
          cases h
          rw [mkCondition_field]
          exact fun x hx => hsub2 x (searchFirst_field_mem _ (tryPatNum_some_field '<') _ _ _ h4 x hx)
        | none =>
          rw [h4] at h
          cases h5 : searchFirst tryPatLike
              (if (pyStrip part).getLast? == some ';' then (pyStrip part).dropLast else pyStrip part) with
          | some p =>
            obtain ⟨f, v⟩ := p
            rw [h5] at h
            cases h
            rw [mkCondition_field]
            exact fun x hx => hsub2 x (searchFirst_field_mem _ tryPatLike_some_field _ _ _ h5 x hx)
          | none =>
            rw [h5] at h
            cases h

theorem extract_field_mem (seg target : Str)
    (hs : ∀ x ∈ seg, x ∈ target) (cond : Condition)
    (h : cond ∈ extract_conditions (pyStrip seg)) : ∀ x ∈ cond.field, x ∈ target := by
  unfold extract_conditions reSplitAndOr at h
  rcases List.mem_filterMap.mp h with ⟨part, hpart, hcond⟩
  intro x hx
  have hmem : x ∈ pyStrip seg := by
    rcases reSplitGo_mem _ _ _ part hpart x
      (condFromPart_field_mem part cond hcond x hx) with h0 | h0
    · cases h0
    · exact h0
  exact hs x (pyStrip_subset seg x hmem)

theorem parse_sql_conditions_field_mem (sql : Str) (cond : Condition)
    (h : cond ∈ parse_sql_conditions sql) : ∀ x ∈ cond.field, x ∈ pyUpper sql := by
  unfold parse_sql_conditions at h
  dsimp only at h
  cases h0 : splitFirst ("WHERE".toList) (pyUpper sql) with
  | none => rw [h0] at h; simp at h
  | some p =>
    obtain ⟨pre, rest1⟩ := p
    rw [h0] at h
    dsimp only at h
    have hrest1 : ∀ x ∈ rest1, x ∈ pyUpper sql := (splitFirst_some_mem _ _ _ _ h0).2
    cases h1 : splitFirst ("WHERE".toList) rest1 with
    | none =>
      rw [h1] at h
      dsimp only at h
      cases h2 : splitFirst ("GROUP BY".toList) rest1 with
      | none =>
        rw [h2] at h
        dsimp only at h
        cases h3 : splitFirst ("ORDER BY".toList) rest1 with
        | none =>
          rw [h3] at h
          dsimp only at h
          exact extract_field_mem rest1 _ hrest1 cond h
        | some q3 =>
          obtain ⟨a3, b3⟩ := q3
          rw [h3] at h
          dsimp only at h
          exact extract_field_mem a3 _
            (fun x hx => hrest1 x ((splitFirst_some_mem _ _ _ _ h3).1 x hx)) cond h
      | some q2 =>
        obtain ⟨a2, b2⟩ := q2
        rw [h2] at h
        dsimp only at h
        have ha2 : ∀ x ∈ a2, x ∈ pyUpper sql :=
          fun x hx => hrest1 x ((splitFirst_some_mem _ _ _ _ h2).1 x hx)
        cases h3 : splitFirst ("ORDER BY".toList) a2 with
        | none =>
          rw [h3] at h
          dsimp only at h
          exact extract_field_mem a2 _ ha2 cond h
        | some q3 =>
          obtain ⟨a3, b3⟩ := q3
          rw [h3] at h
          dsimp only at h
          exact extract_field_mem a3 _
            (fun x hx => ha2 x ((splitFirst_some_mem _ _ _ _ h3).1 x hx)) cond h
    | some q1 =>
      obtain ⟨a1, b1⟩ := q1
      rw [h1] at h
      dsimp only at h
      have ha1 : ∀ x ∈ a1, x ∈ pyUpper sql :=
        fun x hx => hrest1 x ((splitFirst_some_mem _ _ _ _ h1).1 x hx)
      cases h2 : splitFirst ("GROUP BY".toList) a1 with
      | none =>
        rw [h2] at h
        dsimp only at h
        cases h3 : splitFirst ("ORDER BY".toList) a1 with
        | none =>
          rw [h3] at h
          dsimp only at h
          exact extract_field_mem a1 _ ha1 cond h
        | some q3 =>
          obtain ⟨a3, b3⟩ := q3
          rw [h3] at h
          dsimp only at h
          exact extract_field_mem a3 _
            (fun x hx => ha1 x ((splitFirst_some_mem _ _ _ _ h3).1 x hx)) cond h
      | some q2 =>
        obtain ⟨a2, b2⟩ := q2
        rw [h2] at h
        dsimp only at h
        have ha2 : ∀ x ∈ a2, x ∈ pyUpper sql :=
          fun x hx => ha1 x ((splitFirst_some_mem _ _ _ _ h2).1 x hx)
        cases h3 : splitFirst ("ORDER BY".toList) a2 with
        | none =>
          rw [h3] at h
          dsimp only at h
          exact extract_field_mem a2 _ ha2 cond h
        | some q3 =>
          obtain ⟨a3, b3⟩ := q3
          rw [h3] at h
          dsimp only at h
          exact extract_field_mem a3 _
            (fun x hx => ha2 x ((splitFirst_some_mem _ _ _ _ h3).1 x hx)) cond h

theorem condEval_fail_of_missing (rec : Record) (cond : Condition)
    (h : List.lookup cond.field rec = none) : condEval rec cond = COutcome.fail := by
  unfold condEval
  rw [h]

theorem recordCheck_fail_head (rec : Record) (c : Condition) (cs : List Condition)
    (h : condEval rec c = COutcome.fail) : recordCheck rec (c :: cs) = COutcome.fail := by
  simp [recordCheck, h]

theorem applyConditionsGo_all_fail (conds : List Condition) :
    ∀ data : List Record, (∀ r ∈ data, recordCheck r conds = COutcome.fail) →
      applyConditionsGo data conds = FOutcome.ok [] := by
  intro data
  induction data with
  | nil => intro _; rw [applyConditionsGo]
  | cons r rs ih =>
    intro h
    rw [applyConditionsGo]
    rw [h r (List.mem_cons_self _ _)]
    exact ih (fun r2 hr2 => h r2 (List.mem_cons_of_mem _ hr2))

theorem field_ne_of_upper (fld : Str) (hf : ∀ x ∈ fld, ∃ y, x = pyUpperChar y)
    (k : Str) (kc : Char) (hkc : kc ∈ k)
    (hlc : (casePairs.lookup kc).isSome = true) : fld ≠ k := by
  intro he
  rcases hf kc (he ▸ hkc) with ⟨y, hy⟩
  exact pyUpperChar_ne y kc hlc hy.symm

/-- C10: for every generated SQL string, the data tool's filtered result
over the built-in sample records is all-or-nothing: the entire sample
list when no conditions are extracted, and the empty list whenever at
least one condition is extracted — every extracted field name comes from
the upper-cased query, so it contains no lowercase letter, while every
sample-record key does, and the missing-field rule excludes every
record. -/
theorem c10_all_or_nothing (sql : Str) :
    apply_conditions sample_data_main (parse_sql_conditions sql)
      = FOutcome.ok (if parse_sql_conditions sql = [] then sample_data_main else []) := by
  cases hp : parse_sql_conditions sql with
  | nil => simp [apply_conditions]
  | cons c cs =>
    rw [if_neg (by simp)]
    have hc : c ∈ parse_sql_conditions sql := by
      rw [hp]; exact List.mem_cons_self _ _
    have hfield := parse_sql_conditions_field_mem sql c hc
    have hup : ∀ x ∈ c.field, ∃ y, x = pyUpperChar y := by
      intro x hx
      rcases List.mem_map.mp (hfield x hx) with ⟨y, _, hy⟩
      exact ⟨y, hy.symm⟩
    have hne1 : (c.field == ("campaign_id".toList)) = false :=
      beq_eq_false_iff_ne.mpr (field_ne_of_upper _ hup _ 'c' (by decide) (by decide))
    have hne2 : (c.field == ("influenced_revenue".toList)) = false :=
      beq_eq_false_iff_ne.mpr (field_ne_of_upper _ hup _ 'i' (by decide) (by decide))
    have hne3 : (c.field == ("impressions".toList)) = false :=
      beq_eq_false_iff_ne.mpr (field_ne_of_upper _ hup _ 'i' (by decide) (by decide))
    have hne4 : (c.field == ("clicks".toList)) = false :=
      beq_eq_false_iff_ne.mpr (field_ne_of_upper _ hup _ 'c' (by decide) (by decide))
    have hne5 : (c.field == ("channel".toList)) = false :=
      beq_eq_false_iff_ne.mpr (field_ne_of_upper _ hup _ 'c' (by decide) (by decide))
    have hne6 : (c.field == ("run_date".toList)) = false :=
      beq_eq_false_iff_ne.mpr (field_ne_of_upper _ hup _ 'r' (by decide) (by decide))
    unfold apply_conditions
    rw [if_neg (by simp)]
    apply applyConditionsGo_all_fail
    intro r hr
    apply recordCheck_fail_head
    apply condEval_fail_of_missing
    simp only [sample_data_main, List.mem_cons, List.not_mem_nil, or_false] at hr
    rcases hr with hr | hr | hr | hr
    all_goals (subst hr; simp only [List.lookup, hne1, hne2, hne3, hne4, hne5, hne6])

/-! ## Character-class lemmas for the template theorem -/

theorem lookup_some_key_mem (k : Char) (l : List (Char × Char)) (u : Char)
    (h : l.lookup k = some u) : k ∈ l.map Prod.fst := by
  induction l with
  | nil => simp [List.lookup] at h
  | cons p ps ih =>
    obtain ⟨k1, v1⟩ := p
    rw [List.lookup] at h
    by_cases hk : k == k1
    · simp [eq_of_beq hk]
    · rw [Bool.not_eq_true] at hk
      rw [hk] at h
      simpa using Or.inr (ih h)

theorem pyUpperChar_cases (c : Char) :
    pyUpperChar c = c ∨ ∃ u ∈ casePairs.map Prod.snd, pyUpperChar c = u := by
  unfold pyUpperChar
  cases h : casePairs.lookup c with
  | none => exact Or.inl rfl
  | some u => exact Or.inr ⟨u, lookup_some_val_mem c casePairs u h, rfl⟩

theorem word_not_space (c : Char) (h : isWordChar c = true) : isPySpace c = false := by
  by_contra hc
  rw [Bool.not_eq_false] at hc
  unfold isPySpace at hc
  rcases Bool.or_eq_true_iff.mp hc with hc1 | hc1
  · rcases Bool.or_eq_true_iff.mp hc1 with hc2 | hc2
    · rcases Bool.or_eq_true_iff.mp hc2 with hc3 | hc3
      · rcases Bool.or_eq_true_iff.mp hc3 with hc4 | hc4
        · rcases Bool.or_eq_true_iff.mp hc4 with hc5 | hc5
          · rw [eq_of_beq hc5] at h; cases h
          · rw [eq_of_beq hc5] at h; cases h
        · rw [eq_of_beq hc4] at h; cases h
      · rw [eq_of_beq hc3] at h; cases h
    · rw [eq_of_beq hc2] at h; cases h
  · rw [eq_of_beq hc1] at h; cases h

theorem digit_not_space (c : Char) (h : c.isDigit = true) : isPySpace c = false :=
  word_not_space c (by unfold isWordChar; rw [h]; simp)

theorem digit_word (c : Char) (h : c.isDigit = true) : isWordChar c = true := by
  unfold isWordChar; rw [h]; simp

theorem upper_vals_facts :
    ∀ u ∈ casePairs.map Prod.snd,
      isWordChar u = true ∧ isPySpace u = false ∧ isQuoteChar u = false
      ∧ u ≠ '>' ∧ u ≠ '<' ∧ u ≠ '=' ∧ pyUpperChar u = u ∧ Char.isDigit u = false := by
  decide

theorem upper_word (c : Char) (h : isWordChar c = true) :
    isWordChar (pyUpperChar c) = true := by
  rcases pyUpperChar_cases c with he | ⟨u, hu, he⟩
  · rw [he]; exact h
  · rw [he]; exact (upper_vals_facts u hu).1

theorem upper_not_space (c : Char) (h : isPySpace c = false) :
    isPySpace (pyUpperChar c) = false := by
  rcases pyUpperChar_cases c with he | ⟨u, hu, he⟩
  · rw [he]; exact h
  · rw [he]; exact (upper_vals_facts u hu).2.1

theorem upper_not_quote (c : Char) (h : isQuoteChar c = false) :
    isQuoteChar (pyUpperChar c) = false := by
  rcases pyUpperChar_cases c with he | ⟨u, hu, he⟩
  · rw [he]; exact h
  · rw [he]; exact (upper_vals_facts u hu).2.2.1

theorem pyUpperChar_idem (c : Char) : pyUpperChar (pyUpperChar c) = pyUpperChar c := by
  rcases pyUpperChar_cases c with he | ⟨u, hu, he⟩
  · rw [he]; exact he
  · rw [he]; exact (upper_vals_facts u hu).2.2.2.2.2.2.1

theorem digit_upper_self (c : Char) (h : c.isDigit = true) : pyUpperChar c = c := by
  unfold pyUpperChar
  cases hl : casePairs.lookup c with
  | none => rfl
  | some u =>
    have hk := lookup_some_key_mem c casePairs u hl
    have hkeys : ∀ k ∈ casePairs.map Prod.fst, Char.isDigit k = false := by decide
    rw [hkeys c hk] at h
    cases h

theorem digit_lower_self (c : Char) (h : c.isDigit = true) : pyLowerChar c = c := by
  unfold pyLowerChar
  cases hl : caseRev.lookup c with
  | none => rfl
  | some u =>
    have hk := lookup_some_key_mem c caseRev u hl
    have hkeys : ∀ k ∈ caseRev.map Prod.fst, Char.isDigit k = false := by decide
    rw [hkeys c hk] at h
    cases h

theorem pyUpper_digits (nn : Str) (h : ∀ c ∈ nn, c.isDigit = true) : pyUpper nn = nn := by
  unfold pyUpper
  rw [List.map_congr_left (fun c hc => digit_upper_self c (h c hc))]
  exact List.map_id nn

theorem pyUpper_idem (s : Str) : pyUpper (pyUpper s) = pyUpper s := by
  unfold pyUpper
  rw [List.map_map]
  exact List.map_congr_left (fun c _ => pyUpperChar_idem c)

/-! ## Append-scanning lemmas -/

theorem takeWhile_append_all (p : Char → Bool) (l : Str) (hl : ∀ c ∈ l, p c = true) :
    ∀ r, (l ++ r).takeWhile p = l ++ r.takeWhile p := by
  induction l with
  | nil => intro r; simp
  | cons c l2 ih =>
    intro r
    rw [List.cons_append, List.takeWhile_cons_of_pos (hl c (List.mem_cons_self _ _))]
    rw [ih (fun c2 hc2 => hl c2 (List.mem_cons_of_mem _ hc2)) r]
    rfl

theorem dropWhile_append_all (p : Char → Bool) (l : Str) (hl : ∀ c ∈ l, p c = true) :
    ∀ r, (l ++ r).dropWhile p = r.dropWhile p := by
  induction l with
  | nil => intro r; simp
  | cons c l2 ih =>
    intro r
    rw [List.cons_append, List.dropWhile_cons_of_pos (hl c (List.mem_cons_self _ _))]
    exact ih (fun c2 hc2 => hl c2 (List.mem_cons_of_mem _ hc2)) r

theorem takeWhile_all (p : Char → Bool) (l : Str) (hl : ∀ c ∈ l, p c = true) :
    l.takeWhile p = l := by
  have := takeWhile_append_all p l hl []
  simpa using this

theorem takeWhile_stop (p : Char → Bool) (l : Str) (hl : ∀ c ∈ l, p c = true)
    (c0 : Char) (h0 : p c0 = false) (r : Str) :
    (l ++ c0 :: r).takeWhile p = l := by
  rw [takeWhile_append_all p l hl]
  rw [List.takeWhile_cons_of_neg (by rw [h0]; exact Bool.false_ne_true)]
  simp

theorem dropWhile_stop (p : Char → Bool) (l : Str) (hl : ∀ c ∈ l, p c = true)
    (c0 : Char) (h0 : p c0 = false) (r : Str) :
    (l ++ c0 :: r).dropWhile p = c0 :: r := by
  rw [dropWhile_append_all p l hl]
  rw [List.dropWhile_cons_of_neg (by rw [h0]; exact Bool.false_ne_true)]

/-! ## Fuel adequacy for the separator splitter -/

theorem dropCaseless_length (lit : Str) :
    ∀ s t, dropCaseless lit s = some t → t.length ≤ s.length := by
  induction lit with
  | nil => intro s t h; rw [dropCaseless] at h; cases h; exact Nat.le_refl _
  | cons l ls ih =>
    intro s t h
    cases s with
    | nil => rw [dropCaseless] at h; cases h
    | cons c cs =>
      rw [dropCaseless] at h
      by_cases hc : pyLowerChar c == pyLowerChar l
      · rw [if_pos hc] at h
        exact Nat.le_succ_of_le (ih cs t h)
      · rw [if_neg hc] at h
        cases h

theorem sepTail_length (lit r1 t : Str) (h : sepTail lit r1 = some t) :
    t.length ≤ r1.length := by
  cases hd : dropCaseless lit r1 with
  | none => simp [sepTail, hd] at h
  | some r2 =>
    cases r2 with
    | nil => simp [sepTail, hd] at h
    | cons d r3 =>
      by_cases hsp : isPySpace d
      · simp only [sepTail, hd, if_pos hsp] at h
        cases h
        calc (r3.dropWhile isPySpace).length ≤ r3.length :=
            (List.dropWhile_suffix isPySpace).length_le
          _ ≤ (d :: r3).length := Nat.le_succ _
          _ ≤ r1.length := dropCaseless_length lit r1 (d :: r3) hd
      · simp [sepTail, hd, hsp] at h

theorem matchSep_some_length (s t : Str) (h : matchSep s = some t) :
    t.length < s.length := by
  cases s with
  | nil => simp [matchSep] at h
  | cons c rest =>
    by_cases hsp : isPySpace c
    · have hle : t.length ≤ rest.length := by
        cases ha : sepTail ("AND".toList) (rest.dropWhile isPySpace) with
        | some t1 =>
          simp only [matchSep, if_pos hsp, ha] at h
          cases h
          exact Nat.le_trans (sepTail_length _ _ _ ha)
            (List.dropWhile_suffix isPySpace).length_le
        | none =>
          simp only [matchSep, if_pos hsp, ha] at h
          exact Nat.le_trans (sepTail_length _ _ _ h)
            (List.dropWhile_suffix isPySpace).length_le
      exact Nat.lt_succ_of_le hle
    · simp [matchSep, hsp] at h

theorem reSplitGo_nil (f : Nat) (acc : Str) : reSplitGo f acc [] = [acc.reverse] := by
  cases f <;> rfl

theorem reSplitGo_fuel_adequate :
    ∀ (n f1 f2 : Nat) (acc s : Str), s.length ≤ n → s.length < f1 → s.length < f2 →
      reSplitGo f1 acc s = reSplitGo f2 acc s := by
  intro n
  induction n with
  | zero =>
    intro f1 f2 acc s hn _ _
    have : s = [] := List.eq_nil_of_length_eq_zero (Nat.le_zero.mp hn)
    subst this
    rw [reSplitGo_nil, reSplitGo_nil]
  | succ n ih =>
    intro f1 f2 acc s hn h1 h2
    cases s with
    | nil => rw [reSplitGo_nil, reSplitGo_nil]
    | cons c r =>
      cases f1 with
      | zero => cases h1
      | succ f1b =>
        cases f2 with
        | zero => cases h2
        | succ f2b =>
          cases hm : matchSep (c :: r) with
          | some t =>
            have hlt := matchSep_some_length _ _ hm
            have hlen : t.length ≤ n := by
              simp only [List.length_cons] at hn hlt
              omega
            simp only [reSplitGo, hm]
            rw [ih f1b f2b [] t hlen (by simp only [List.length_cons] at h1 hlt; omega)
              (by simp only [List.length_cons] at h2 hlt; omega)]
          | none =>
            simp only [reSplitGo, hm]
            exact ih f1b f2b (c :: acc) r
              (by simp only [List.length_cons] at hn; omega)
              (by simp only [List.length_cons] at h1; omega)
              (by simp only [List.length_cons] at h2; omega)

theorem matchSep_not_space (c : Char) (r : Str) (h : isPySpace c = false) :
    matchSep (c :: r) = none := by
  simp [matchSep, h]

theorem reSplitRun_none (c : Char) (r acc : Str) (h : matchSep (c :: r) = none) :
    reSplitGo ((c :: r).length + 1) acc (c :: r) = reSplitGo (r.length + 1) (c :: acc) r := by
  simp [reSplitGo, h]

theorem reSplitRun_consume (l : Str) (hl : ∀ c ∈ l, isPySpace c = false) :
    ∀ (acc r : Str),
      reSplitGo ((l ++ r).length + 1) acc (l ++ r) = reSplitGo (r.length + 1) (l.reverse ++ acc) r := by
  induction l with
  | nil => intro acc r; simp
  | cons c l2 ih =>
    intro acc r
    rw [List.cons_append]
    rw [reSplitRun_none c (l2 ++ r) acc
      (matchSep_not_space c _ (hl c (List.mem_cons_self _ _)))]
    rw [ih (fun c2 hc2 => hl c2 (List.mem_cons_of_mem _ hc2)) (c :: acc) r]
    simp

theorem reSplitRun_jump (c : Char) (r acc t : Str) (h : matchSep (c :: r) = some t) :
    reSplitGo ((c :: r).length + 1) acc (c :: r)
      = acc.reverse :: reSplitGo (t.length + 1) [] t := by
  have step : reSplitGo ((c :: r).length + 1) acc (c :: r)
      = acc.reverse :: reSplitGo ((c :: r).length) [] t := by
    simp [reSplitGo, h]
  rw [step]
  have hlt := matchSep_some_length _ _ h
  rw [reSplitGo_fuel_adequate t.length ((c :: r).length) (t.length + 1) [] t
    (Nat.le_refl _) hlt (Nat.lt_succ_self _)]

/-! ## Concrete separator evaluations for the template theorem -/

theorem matchSep_space_eq (x : Str) : matchSep (' ' :: '=' :: x) = none := rfl

theorem matchSep_space_quote (x : Str) : matchSep (' ' :: '\x27' :: x) = none := rfl

theorem matchSep_space_gt (x : Str) : matchSep (' ' :: '>' :: x) = none := rfl

theorem matchSep_space_digit (d : Char) (hd : d.isDigit = true) (t : Str) :
    matchSep (' ' :: d :: t) = none := by
  have h1 : isPySpace d = false := digit_not_space d hd
  have h2 : pyLowerChar d = d := digit_lower_self d hd
  have h3 : (d == 'a') = false := by
    refine beq_eq_false_iff_ne.mpr (fun he => ?_)
    rw [he] at hd
    exact absurd hd (by decide)
  have h4 : (d == 'o') = false := by
    refine beq_eq_false_iff_ne.mpr (fun he => ?_)
    rw [he] at hd
    exact absurd hd (by decide)
  have hA : pyLowerChar 'A' = 'a' := rfl
  have hO : pyLowerChar 'O' = 'o' := rfl
  have hsp : isPySpace ' ' = true := rfl
  have hne3 : ¬(d = 'a') := by simpa using h3
  have hne4 : ¬(d = 'o') := by simpa using h4
  simp [matchSep, sepTail, dropCaseless, h1, h2, hA, hO, hsp, hne3, hne4]

theorem matchSep_and_jump (c0 : Char) (h : isPySpace c0 = false) (u x : Str) :
    matchSep (' ' :: 'A' :: 'N' :: 'D' :: ' ' :: (c0 :: u) ++ x) = some ((c0 :: u) ++ x) := by
  have h2 := h
  simp only [isPySpace, Bool.or_eq_false_iff, beq_eq_false_iff_ne] at h2
  simp [matchSep, sepTail, dropCaseless, isPySpace, pyLowerChar, caseRev, casePairs, h2]

theorem reSplitRun_final (l : Str) (hl : ∀ c ∈ l, isPySpace c = false) (acc : Str) :
    reSplitGo (l.length + 1) acc l = [(l.reverse ++ acc).reverse] := by
  have h := reSplitRun_consume l hl acc []
  rw [List.append_nil] at h
  rw [h]
  exact reSplitGo_nil _ _

/-! ## Stripping and pattern-template lemmas -/

theorem pyStrip_cons_space (X : Str) : pyStrip (' ' :: X) = pyStrip X := by
  unfold pyStrip
  rw [List.dropWhile_cons_of_pos (by decide)]

theorem pyStrip_eq_self (s : Str) (h1 : ∀ c, s.head? = some c → isPySpace c = false)
    (h2 : ∀ c, s.getLast? = some c → isPySpace c = false) : pyStrip s = s := by
  unfold pyStrip
  have hfront : s.dropWhile isPySpace = s := by
    cases s with
    | nil => rfl
    | cons c r =>
      exact List.dropWhile_cons_of_neg (by rw [h1 c rfl]; exact Bool.false_ne_true)
  rw [hfront]
  have hback : s.reverse.dropWhile isPySpace = s.reverse := by
    cases hrev : s.reverse with
    | nil => rfl
    | cons c r =>
      have hc : s.getLast? = some c := by
        rw [← List.head?_reverse, hrev]
        rfl
      exact List.dropWhile_cons_of_neg (by rw [h2 c hc]; exact Bool.false_ne_true)
  rw [hback, List.reverse_reverse]

theorem tryPatStrEq_template (u1 uv : Str) (h1 : u1 ≠ []) (hw : ∀ c ∈ u1, isWordChar c = true)
    (hv : uv ≠ []) (hq : ∀ c ∈ uv, isQuoteChar c = false) :
    tryPatStrEq (u1 ++ ' ' :: '=' :: ' ' :: '\x27' :: (uv ++ ['\x27'])) = some (u1, uv) := by
  unfold tryPatStrEq
  dsimp only
  rw [takeWhile_stop isWordChar u1 hw ' ' (by decide)]
  rw [if_neg (by simp [h1])]
  rw [dropWhile_stop isWordChar u1 hw ' ' (by decide)]
  rw [List.dropWhile_cons_of_pos (by decide)]
  rw [List.dropWhile_cons_of_neg (by decide)]
  dsimp only
  rw [if_pos (by decide)]
  rw [List.dropWhile_cons_of_pos (by decide)]
  rw [List.dropWhile_cons_of_neg (by decide)]
  dsimp only
  rw [if_pos (by decide)]
  rw [takeWhile_stop (fun c => !(isQuoteChar c)) uv
    (fun c hc => by simp [hq c hc]) '\x27' (by decide)]
  rw [if_neg (by simp [hv])]
  rw [dropWhile_stop (fun c => !(isQuoteChar c)) uv
    (fun c hc => by simp [hq c hc]) '\x27' (by decide)]
  dsimp only
  rw [if_pos (by decide)]

theorem tryPatNum_gt_template (u2 nn : Str) (h2 : u2 ≠ []) (hw : ∀ c ∈ u2, isWordChar c = true)
    (hn : nn ≠ []) (hd : ∀ c ∈ nn, c.isDigit = true) :
    tryPatNum '>' (u2 ++ ' ' :: '>' :: ' ' :: nn) = some (u2, nn) := by
  unfold tryPatNum
  dsimp only
  rw [takeWhile_stop isWordChar u2 hw ' ' (by decide)]
  rw [if_neg (by simp [h2])]
  rw [dropWhile_stop isWordChar u2 hw ' ' (by decide)]
  rw [List.dropWhile_cons_of_pos (by decide)]
  rw [List.dropWhile_cons_of_neg (by decide)]
  dsimp only
  rw [if_pos (by decide)]
  rw [List.dropWhile_cons_of_pos (by decide)]
  have hnd2 : nn.dropWhile isPySpace = nn := by
    cases nn with
    | nil => rfl
    | cons d t =>
      exact List.dropWhile_cons_of_neg
        (by rw [digit_not_space d (hd d (List.mem_cons_self _ _))]; exact Bool.false_ne_true)
  rw [hnd2]
  rw [takeWhile_all Char.isDigit nn hd]
  rw [if_neg (by simp [hn])]

theorem tryPatStrEq_none_no_eq (s : Str) (h : '=' ∉ s) : tryPatStrEq s = none := by
  unfold tryPatStrEq
  dsimp only
  by_cases hfe : (s.takeWhile isWordChar).isEmpty
  · rw [if_pos hfe]
  · rw [if_neg hfe]
    cases hX : (s.dropWhile isWordChar).dropWhile isPySpace with
    | nil => rfl
    | cons x xs =>
      have hx : x ∈ s := by
        have hm1 : x ∈ (s.dropWhile isWordChar).dropWhile isPySpace := by
          rw [hX]; exact List.mem_cons_self _ _
        exact (List.dropWhile_suffix isWordChar).subset
          ((List.dropWhile_suffix isPySpace).subset hm1)
      dsimp only
      rw [if_neg (by
        refine fun hbe => h ?_
        rw [← eq_of_beq hbe]
        exact hx)]

theorem tryPatNum_none_no_op (opc : Char) (s : Str) (h : opc ∉ s) : tryPatNum opc s = none := by
  unfold tryPatNum
  dsimp only
  by_cases hfe : (s.takeWhile isWordChar).isEmpty
  · rw [if_pos hfe]
  · rw [if_neg hfe]
    cases hX : (s.dropWhile isWordChar).dropWhile isPySpace with
    | nil => rfl
    | cons x xs =>
      have hx : x ∈ s := by
        have hm1 : x ∈ (s.dropWhile isWordChar).dropWhile isPySpace := by
          rw [hX]; exact List.mem_cons_self _ _
        exact (List.dropWhile_suffix isWordChar).subset
          ((List.dropWhile_suffix isPySpace).subset hm1)
      dsimp only
      rw [if_neg (by
        refine fun hbe => h ?_
        rw [← eq_of_beq hbe]
        exact hx)]

theorem searchFirst_none_of (f : Str → Option (Str × Str)) :
    ∀ s, (∀ t : Str, (∀ x ∈ t, x ∈ s) → f t = none) → searchFirst f s = none := by
  intro s
  induction s with
  | nil => intro hf; rw [searchFirst]; exact hf [] (by simp)
  | cons c r ih =>
    intro hf
    rw [searchFirst]
    rw [hf (c :: r) (fun x hx => hx)]
    exact ih (fun t ht => hf t (fun x hx => List.mem_cons_of_mem _ (ht x hx)))

theorem searchFirst_cons_of_some (f : Str → Option (Str × Str)) (c : Char) (r : Str)
    (p : Str × Str) (h : f (c :: r) = some p) : searchFirst f (c :: r) = some p := by
  rw [searchFirst, h]

theorem searchFirst_of_head (f : Str → Option (Str × Str)) (s : Str) (p : Str × Str)
    (h : f s = some p) : searchFirst f s = some p := by
  cases s with
  | nil => rw [searchFirst]; exact h
  | cons c r => rw [searchFirst, h]

theorem splitFirst_prefix_eq (pat r : Str) (hp : pat ≠ []) :
    splitFirst pat (pat ++ r) = some ([], r) := by
  cases pat with
  | nil => exact absurd rfl hp
  | cons p0 ps =>
    rw [List.cons_append, splitFirst]
    have hpre : (p0 :: ps).isPrefixOf (p0 :: (ps ++ r)) = true := by
      rw [← List.cons_append]
      exact List.isPrefixOf_iff_prefix.mpr (List.prefix_append _ _)
    rw [if_pos hpre]
    rw [← List.cons_append, List.drop_left]

theorem getLast?_append_of_ne (l1 l2 : Str) (h : l2 ≠ []) :
    (l1 ++ l2).getLast? = l2.getLast? := by
  rw [List.getLast?_append]
  rcases List.getLast?_eq_getLast l2 h with hg
  rw [hg]
  rfl

/-- The input shape of the C1 template, `WHERE f1 = 'v' AND f2 > n`. -/
def c1_template (f1 v f2 n : Str) : Str :=
  "WHERE ".toList ++ f1 ++ " = \x27".toList ++ v ++ "\x27 AND ".toList ++ f2 ++ " > ".toList ++ n

/-- The upper-cased text after the leading `WHERE ` of the template. -/
def c1_body (f1 v f2 n : Str) : Str :=
  pyUpper f1 ++ ' ' :: '=' :: ' ' :: '\x27' ::
    (pyUpper v ++ '\x27' :: ' ' :: 'A' :: 'N' :: 'D' :: ' ' ::
      (pyUpper f2 ++ ' ' :: '>' :: ' ' :: n))

theorem contains_eq_true_of_mem (l : Str) (c : Char) (h : c ∈ l) : l.contains c = true := by
  simpa using h

theorem contains_eq_false_of_not_mem (l : Str) (c : Char) (h : c ∉ l) : l.contains c = false := by
  cases hb : l.contains c with
  | false => rfl
  | true => exact absurd (by simpa using hb) h

theorem pyUpper_append (x y : Str) : pyUpper (x ++ y) = pyUpper x ++ pyUpper y :=
  List.map_append pyUpperChar x y

theorem pyUpper_cons (c : Char) (t : Str) : pyUpper (c :: t) = pyUpperChar c :: pyUpper t := rfl

/-- C1: on a template input `WHERE f1 = 'v' AND f2 > n` — `f1`, `f2` nonempty
words, `v` nonempty without quote or whitespace characters, `n` nonempty
digits, with side conditions ruling out a second keyword occurrence or a
stray operator character in the upper-cased text — the extractor returns
exactly two conditions in clause order with the operators `=` and `>`, but
the field and value components are the *upper-cased* forms of what was
written (the source upper-cases the whole query first), so the spec's "equal
the field names ... and values written in the input" holds only up to case. -/
theorem c1_extract_two_conditions
    (f1 v f2 n : Str)
    (hf1e : f1 ≠ []) (hf1w : ∀ c ∈ f1, isWordChar c = true)
    (hf2e : f2 ≠ []) (hf2w : ∀ c ∈ f2, isWordChar c = true)
    (hve : v ≠ []) (hvq : ∀ c ∈ v, isQuoteChar c = false)
    (hvs : ∀ c ∈ v, isPySpace c = false)
    (hne : n ≠ []) (hnd : ∀ c ∈ n, c.isDigit = true)
    (hW : splitFirst ("WHERE".toList) (' ' :: c1_body f1 v f2 n) = none)
    (hGB : splitFirst ("GROUP BY".toList) (' ' :: c1_body f1 v f2 n) = none)
    (hOB : splitFirst ("ORDER BY".toList) (' ' :: c1_body f1 v f2 n) = none)
    (hgt : '>' ∉ pyUpper v) (hlt : '<' ∉ pyUpper v)
    (hlike : pyIn ("LIKE".toList)
      (pyUpper f1 ++ ' ' :: '=' :: ' ' :: '\x27' :: (pyUpper v ++ ['\x27'])) = false) :
    parse_sql_conditions (c1_template f1 v f2 n)
      = [⟨pyUpper f1, "=".toList, pyUpper v⟩, ⟨pyUpper f2, ">".toList, n⟩] := by
  obtain ⟨a, f1t, rfl⟩ : ∃ a t, f1 = a :: t := by
    cases f1 with
    | nil => exact absurd rfl hf1e
    | cons a t => exact ⟨a, t, rfl⟩
  obtain ⟨b, f2t, rfl⟩ : ∃ b t, f2 = b :: t := by
    cases f2 with
    | nil => exact absurd rfl hf2e
    | cons b t => exact ⟨b, t, rfl⟩
  obtain ⟨d, nt, rfl⟩ : ∃ d t, n = d :: t := by
    cases n with
    | nil => exact absurd rfl hne
    | cons d t => exact ⟨d, t, rfl⟩
  have hU1w : ∀ c ∈ pyUpper (a :: f1t), isWordChar c = true := by
    intro c hc
    rcases List.mem_map.mp hc with ⟨y, hy, rfl⟩
    exact upper_word y (hf1w y hy)
  have hU2w : ∀ c ∈ pyUpper (b :: f2t), isWordChar c = true := by
    intro c hc
    rcases List.mem_map.mp hc with ⟨y, hy, rfl⟩
    exact upper_word y (hf2w y hy)
  have hUVq : ∀ c ∈ pyUpper v, isQuoteChar c = false := by
    intro c hc
    rcases List.mem_map.mp hc with ⟨y, hy, rfl⟩
    exact upper_not_quote y (hvq y hy)
  have hUVs : ∀ c ∈ pyUpper v, isPySpace c = false := by
    intro c hc
    rcases List.mem_map.mp hc with ⟨y, hy, rfl⟩
    exact upper_not_space y (hvs y hy)
  have hU1ns : ∀ c ∈ pyUpper (a :: f1t), isPySpace c = false :=
    fun c hc => word_not_space c (hU1w c hc)
  have hU1e : pyUpper (a :: f1t) ≠ [] := by simp [pyUpper]
  have hU2e : pyUpper (b :: f2t) ≠ [] := by simp [pyUpper]
  have hUVe : pyUpper v ≠ [] := by
    cases v with
    | nil => exact absurd rfl hve
    | cons x xs => simp [pyUpper]
  -- (A) upper-casing the template
  have hU : pyUpper (c1_template (a :: f1t) v (b :: f2t) (d :: nt))
      = "WHERE".toList ++ ' ' :: c1_body (a :: f1t) v (b :: f2t) (d :: nt) := by
    have hn2 : List.map pyUpperChar (d :: nt) = d :: nt := pyUpper_digits (d :: nt) hnd
    unfold c1_template c1_body
    simp only [pyUpper, List.map_append]
    rw [hn2]
    have e1 : List.map pyUpperChar ("WHERE ".toList) = ("WHERE ".toList) := rfl
    have e2 : List.map pyUpperChar (" = \x27".toList) = (" = \x27".toList) := rfl
    have e3 : List.map pyUpperChar ("\x27 AND ".toList) = ("\x27 AND ".toList) := rfl
    have e4 : List.map pyUpperChar (" > ".toList) = (" > ".toList) := rfl
    rw [e1, e2, e3, e4]
    simp [List.append_assoc]
  -- (B) the split walk over the body
  have hparts : reSplitAndOr (c1_body (a :: f1t) v (b :: f2t) (d :: nt))
      = [pyUpper (a :: f1t) ++ ' ' :: '=' :: ' ' :: '\x27' :: (pyUpper v ++ ['\x27']),
         pyUpper (b :: f2t) ++ ' ' :: '>' :: ' ' :: (d :: nt)] := by
    have hu2c : pyUpper (b :: f2t) = pyUpperChar b :: pyUpper f2t := rfl
    unfold reSplitAndOr c1_body
    rw [reSplitRun_consume (pyUpper (a :: f1t)) hU1ns]
    rw [reSplitRun_none _ _ _ (matchSep_space_eq _)]
    rw [reSplitRun_none _ _ _ (matchSep_not_space '=' _ (by decide))]
    rw [reSplitRun_none _ _ _ (matchSep_space_quote _)]
    rw [reSplitRun_none _ _ _ (matchSep_not_space '\x27' _ (by decide))]
    rw [reSplitRun_consume (pyUpper v) hUVs]
    rw [reSplitRun_none _ _ _ (matchSep_not_space '\x27' _ (by decide))]
    rw [hu2c]
    have hbns : ∀ c ∈ pyUpperChar b :: pyUpper f2t, isPySpace c = false := by
      rw [← hu2c]
      exact fun c hc => word_not_space c (hU2w c hc)
    have hjump : matchSep (' ' :: 'A' :: 'N' :: 'D' :: ' ' ::
        (pyUpperChar b :: pyUpper f2t ++ ' ' :: '>' :: ' ' :: d :: nt))
        = some (pyUpperChar b :: pyUpper f2t ++ ' ' :: '>' :: ' ' :: d :: nt) := by
      simpa using matchSep_and_jump (pyUpperChar b)
        (word_not_space _ (upper_word b (hf2w b (List.mem_cons_self _ _))))
        (pyUpper f2t) (' ' :: '>' :: ' ' :: d :: nt)
    rw [reSplitRun_jump _ _ _ _ hjump]
    rw [reSplitRun_consume (pyUpperChar b :: pyUpper f2t) hbns]
    rw [reSplitRun_none _ _ _ (matchSep_space_gt _)]
    rw [reSplitRun_none _ _ _ (matchSep_not_space '>' _ (by decide))]
    rw [reSplitRun_none _ _ _ (matchSep_space_digit d (hnd d (List.mem_cons_self _ _)) nt)]
    rw [reSplitRun_final (d :: nt) (fun c hc => digit_not_space c (hnd c hc))]
    simp [List.reverse_append, List.append_assoc]
  -- (C) membership facts about the two emitted clauses
  have hp1gt : '>' ∉ (pyUpper (a :: f1t) ++ ' ' :: '=' :: ' ' :: '\x27' :: (pyUpper v ++ ['\x27'])) := by
    intro hmem
    rcases List.mem_append.mp hmem with h | h
    · exact absurd (hU1w _ h) (by decide)
    · simp only [List.mem_cons, List.mem_append, List.mem_singleton] at h
      rcases h with h | h | h | h | h | h
      · exact absurd h (by decide)
      · exact absurd h (by decide)
      · exact absurd h (by decide)
      · exact absurd h (by decide)
      · exact hgt h
      · exact absurd h (by decide)
  have hp1lt : '<' ∉ (pyUpper (a :: f1t) ++ ' ' :: '=' :: ' ' :: '\x27' :: (pyUpper v ++ ['\x27'])) := by
    intro hmem
    rcases List.mem_append.mp hmem with h | h
    · exact absurd (hU1w _ h) (by decide)
    · simp only [List.mem_cons, List.mem_append, List.mem_singleton] at h
      rcases h with h | h | h | h | h | h
      · exact absurd h (by decide)
      · exact absurd h (by decide)
      · exact absurd h (by decide)
      · exact absurd h (by decide)
      · exact hlt h
      · exact absurd h (by decide)
  have hup1 : pyUpper (pyUpper (a :: f1t) ++ ' ' :: '=' :: ' ' :: '\x27' :: (pyUpper v ++ ['\x27']))
      = pyUpper (a :: f1t) ++ ' ' :: '=' :: ' ' :: '\x27' :: (pyUpper v ++ ['\x27']) := by
    rw [pyUpper_append, pyUpper_idem]
    congr 1
    rw [pyUpper_cons, pyUpper_cons, pyUpper_cons, pyUpper_cons, pyUpper_append, pyUpper_idem]
    rfl
  have hlikene : ¬(pyIn ("LIKE".toList)
      (pyUpper (pyUpper (a :: f1t) ++ ' ' :: '=' :: ' ' :: '\x27' :: (pyUpper v ++ ['\x27']))) = true) := by
    rw [hup1, hlike]
    exact Bool.false_ne_true
  -- (D) first clause yields the string-equality condition
  have hlast1 : (pyUpper (a :: f1t) ++ ' ' :: '=' :: ' ' :: '\x27' :: (pyUpper v ++ ['\x27'])).getLast?
      = some '\x27' := by
    have hsp : pyUpper (a :: f1t) ++ ' ' :: '=' :: ' ' :: '\x27' :: (pyUpper v ++ ['\x27'])
        = (pyUpper (a :: f1t) ++ ' ' :: '=' :: ' ' :: '\x27' :: pyUpper v) ++ ['\x27'] := by
      simp [List.append_assoc]
    rw [hsp]
    exact List.getLast?_concat _
  have hcond1 : condFromPart
      (pyUpper (a :: f1t) ++ ' ' :: '=' :: ' ' :: '\x27' :: (pyUpper v ++ ['\x27']))
      = some ⟨pyUpper (a :: f1t), "=".toList, pyUpper v⟩ := by
    unfold condFromPart
    dsimp only
    have hstrip1 : pyStrip (pyUpper (a :: f1t) ++ ' ' :: '=' :: ' ' :: '\x27' :: (pyUpper v ++ ['\x27']))
        = pyUpper (a :: f1t) ++ ' ' :: '=' :: ' ' :: '\x27' :: (pyUpper v ++ ['\x27']) := by
      apply pyStrip_eq_self
      · intro c hc
        have hh : (pyUpper (a :: f1t) ++ ' ' :: '=' :: ' ' :: '\x27' :: (pyUpper v ++ ['\x27'])).head?
            = some (pyUpperChar a) := rfl
        rw [hh] at hc
        injection hc with hc2
        subst hc2
        exact word_not_space _ (upper_word a (hf1w a (List.mem_cons_self _ _)))
      · intro c hc
        rw [hlast1] at hc
        injection hc with hc2
        subst hc2
        decide
    rw [hstrip1]
    rw [if_neg (by rw [hlast1]; exact (by decide : ¬((some '\x27' == some ';') = true)))]
    rw [searchFirst_of_head _ _ _
      (tryPatStrEq_template (pyUpper (a :: f1t)) (pyUpper v) hU1e hU1w hUVe hUVq)]
    dsimp only
    unfold mkCondition
    rw [if_neg (by rw [contains_eq_false_of_not_mem _ _ hp1gt]; exact Bool.false_ne_true)]
    rw [if_neg (by rw [contains_eq_false_of_not_mem _ _ hp1lt]; exact Bool.false_ne_true)]
    rw [if_neg hlikene]
  -- (E) second clause yields the greater-than condition
  have hlast2 : (pyUpper (b :: f2t) ++ ' ' :: '>' :: ' ' :: (d :: nt)).getLast?
      = some ((d :: nt).getLast (by simp)) := by
    have hsp2 : pyUpper (b :: f2t) ++ ' ' :: '>' :: ' ' :: (d :: nt)
        = (pyUpper (b :: f2t) ++ [' ', '>', ' ']) ++ (d :: nt) := by
      simp [List.append_assoc]
    rw [hsp2, getLast?_append_of_ne _ _ (by simp)]
    exact List.getLast?_eq_getLast _ _
  have heqnotin : '=' ∉ (pyUpper (b :: f2t) ++ ' ' :: '>' :: ' ' :: (d :: nt)) := by
    intro hmem
    rcases List.mem_append.mp hmem with h | h
    · exact absurd (hU2w _ h) (by decide)
    · simp only [List.mem_cons] at h
      rcases h with h | h | h | h | h
      · exact absurd h (by decide)
      · exact absurd h (by decide)
      · exact absurd h (by decide)
      · exact absurd (hnd d (List.mem_cons_self _ _)) (by rw [← h]; decide)
      · exact absurd (hnd '=' (List.mem_cons_of_mem _ h)) (by decide)
  have hcond2 : condFromPart (pyUpper (b :: f2t) ++ ' ' :: '>' :: ' ' :: (d :: nt))
      = some ⟨pyUpper (b :: f2t), ">".toList, (d :: nt)⟩ := by
    unfold condFromPart
    dsimp only
    have hstrip2 : pyStrip (pyUpper (b :: f2t) ++ ' ' :: '>' :: ' ' :: (d :: nt))
        = pyUpper (b :: f2t) ++ ' ' :: '>' :: ' ' :: (d :: nt) := by
      apply pyStrip_eq_self
      · intro c hc
        have hh : (pyUpper (b :: f2t) ++ ' ' :: '>' :: ' ' :: (d :: nt)).head?
            = some (pyUpperChar b) := rfl
        rw [hh] at hc
        injection hc with hc2
        subst hc2
        exact word_not_space _ (upper_word b (hf2w b (List.mem_cons_self _ _)))
      · intro c hc
        rw [hlast2] at hc
        injection hc with hc2
        subst hc2
        exact digit_not_space _ (hnd _ (List.getLast_mem _))
    rw [hstrip2]
    have hsemib2 : ((pyUpper (b :: f2t) ++ ' ' :: '>' :: ' ' :: (d :: nt)).getLast? == some ';') = false := by
      rw [hlast2]
      have hdd : ((d :: nt).getLast (by simp)).isDigit = true := hnd _ (List.getLast_mem _)
      cases hbe : (some ((d :: nt).getLast (by simp)) == some (';' : Char)) with
      | false => rfl
      | true =>
        have hx : (d :: nt).getLast (by simp) = ';' := Option.some.inj (eq_of_beq hbe)
        rw [hx] at hdd
        exact absurd hdd (by decide)
    rw [if_neg (by rw [hsemib2]; exact Bool.false_ne_true)]
    rw [searchFirst_none_of tryPatStrEq _
      (fun t ht => tryPatStrEq_none_no_eq t (fun hm => heqnotin (ht '=' hm)))]
    dsimp only
    rw [searchFirst_none_of (tryPatNum '=') _
      (fun t ht => tryPatNum_none_no_op '=' t (fun hm => heqnotin (ht '=' hm)))]
    dsimp only
    rw [searchFirst_of_head _ _ _
      (tryPatNum_gt_template (pyUpper (b :: f2t)) (d :: nt) hU2e hU2w (by simp) hnd)]
    dsimp only
    unfold mkCondition
    rw [if_pos (by
      refine (contains_eq_true_of_mem _ '>' ?_)
      refine List.mem_append.mpr (Or.inr ?_)
      simp)]
  -- (F) stripping the segment
  have hbodylast : (c1_body (a :: f1t) v (b :: f2t) (d :: nt)).getLast? = (d :: nt).getLast? := by
    have hsplit : c1_body (a :: f1t) v (b :: f2t) (d :: nt)
        = (pyUpper (a :: f1t) ++ ' ' :: '=' :: ' ' :: '\x27' ::
            (pyUpper v ++ '\x27' :: ' ' :: 'A' :: 'N' :: 'D' :: ' ' ::
              (pyUpper (b :: f2t) ++ [' ', '>', ' ']))) ++ (d :: nt) := by
      unfold c1_body
      simp [List.append_assoc]
    rw [hsplit]
    exact getLast?_append_of_ne _ _ (by simp)
  have hstrip : pyStrip (' ' :: c1_body (a :: f1t) v (b :: f2t) (d :: nt))
      = c1_body (a :: f1t) v (b :: f2t) (d :: nt) := by
    rw [pyStrip_cons_space]
    apply pyStrip_eq_self
    · intro c hc
      have hh : (c1_body (a :: f1t) v (b :: f2t) (d :: nt)).head? = some (pyUpperChar a) := rfl
      rw [hh] at hc
      injection hc with hc2
      subst hc2
      exact word_not_space _ (upper_word a (hf1w a (List.mem_cons_self _ _)))
    · intro c hc
      rw [hbodylast, List.getLast?_eq_getLast _ (by simp)] at hc
      injection hc with hc2
      subst hc2
      exact digit_not_space _ (hnd _ (List.getLast_mem _))
  -- (G) assemble
  unfold parse_sql_conditions
  dsimp only
  rw [hU]
  rw [splitFirst_prefix_eq ("WHERE".toList) _ (by decide)]
  dsimp only
  rw [hW]
  dsimp only
  rw [hGB]
  dsimp only
  rw [hOB]
  dsimp only
  rw [hstrip]
  unfold extract_conditions
  rw [hparts]
  simp only [List.filterMap_cons, hcond1, hcond2, List.filterMap_nil]

/-- C1 counterexample: for the claim's own example input
`WHERE field = 'X' AND other > 5`, the two extracted conditions carry the
fields `FIELD`/`OTHER` (and value `X` already upper-case), not the `field`
and `other` written in the input: `sql_query.upper()` runs before
extraction, so lower-case field names and values are not returned as
written. -/
theorem c1_counterexample :
    (parse_sql_conditions ("WHERE field = \x27X\x27 AND other > 5".toList)).map
        (fun c => c.field)
      = [("FIELD".toList), ("OTHER".toList)]
    ∧ ("FIELD".toList) ≠ ("field".toList) := by
  constructor
  · rfl
  · decide

theorem c1_extract_two_conditions_witness :
    parse_sql_conditions (c1_template ("field".toList) ("X".toList) ("other".toList) ("5".toList))
      = [⟨pyUpper ("field".toList), "=".toList, pyUpper ("X".toList)⟩,
         ⟨pyUpper ("other".toList), ">".toList, "5".toList⟩] :=
  c1_extract_two_conditions ("field".toList) ("X".toList) ("other".toList) ("5".toList)
    (by decide) (by decide) (by decide) (by decide) (by decide) (by decide) (by decide)
    (by decide) (by decide) (by decide) (by decide) (by decide) (by decide) (by decide)
    (by decide)
